import Mathlib

/-!
Verification of the NvestivSignalDB normalization/entity-resolution pipeline.

Shallow embedding of the extraction logic of the repository's scripts:
  * `export_relational.py`        (`process_investor_data`)
  * `export_relational_fast.py`   (`extract_and_bulk_insert`)
  * `complete_population.py`      (`process_all_nested_data`)
  * `populate_nested_data_fixed.py` (`process_nested_data`, `safe_get`,
    `safe_int`, `is_valid_array`)

Records are modelled as Python-like values (`Val`).  A raw record is a
mapping from field names to values; numpy arrays (`Val.arr`) are kept
distinct from Python lists (`Val.pylist`) because the scripts branch on
`isinstance(x, np.ndarray)` versus `isinstance(x, list)`.  Database
`INSERT ... RETURNING id` is modelled by a sequential counter (SERIAL
columns of a freshly created schema assign 1, 2, 3, ...).
-/

namespace SignalDB


/-- Python-like values as they occur in the loaded parquet records:
`None`, booleans, integers, strings, dicts, numpy arrays and Python
lists.  Floating-point scalars are outside the claims' scope and are
not modelled. -/
inductive Val where
  | null
  | bool (b : Bool)
  | int (n : Int)
  | str (s : String)
  | dict (fields : List (String × Val))
  | arr (elems : List Val)
  | pylist (elems : List Val)

mutual
/-- Boolean equality on values (Python `==` restricted to structural
equality on our value domain). -/
def Val.beq : Val → Val → Bool
  | .null, .null => true
  | .bool a, .bool b => a == b
  | .int a, .int b => a == b
  | .str a, .str b => a == b
  | .dict a, .dict b => Val.beqFields a b
  | .arr a, .arr b => Val.beqList a b
  | .pylist a, .pylist b => Val.beqList a b
  | _, _ => false

def Val.beqList : List Val → List Val → Bool
  | [], [] => true
  | a :: as, b :: bs => Val.beq a b && Val.beqList as bs
  | _, _ => false

def Val.beqFields : List (String × Val) → List (String × Val) → Bool
  | [], [] => true
  | (k, v) :: as, (l, w) :: bs => k == l && Val.beq v w && Val.beqFields as bs
  | _, _ => false
end

mutual
def Val.beq_refl : ∀ a : Val, Val.beq a a = true
  | .null => rfl
  | .bool a => by simp [Val.beq]
  | .int a => by simp [Val.beq]
  | .str a => by simp [Val.beq]
  | .dict a => by simp [Val.beq, Val.beqFields_refl a]
  | .arr a => by simp [Val.beq, Val.beqList_refl a]
  | .pylist a => by simp [Val.beq, Val.beqList_refl a]

def Val.beqList_refl : ∀ as : List Val, Val.beqList as as = true
  | [] => rfl
  | a :: as => by simp [Val.beqList, Val.beq_refl a, Val.beqList_refl as]

def Val.beqFields_refl : ∀ as : List (String × Val), Val.beqFields as as = true
  | [] => rfl
  | (k, v) :: as => by simp [Val.beqFields, Val.beq_refl v, Val.beqFields_refl as]
end

mutual
def Val.eq_of_beq : ∀ a b : Val, Val.beq a b = true → a = b
  | .null, .null, _ => rfl
  | .null, .bool _, h | .null, .int _, h | .null, .str _, h | .null, .dict _, h
  | .null, .arr _, h | .null, .pylist _, h => by simp [Val.beq] at h
  | .bool _, .null, h | .bool _, .int _, h | .bool _, .str _, h | .bool _, .dict _, h
  | .bool _, .arr _, h | .bool _, .pylist _, h => by simp [Val.beq] at h
  | .int _, .null, h | .int _, .bool _, h | .int _, .str _, h | .int _, .dict _, h
  | .int _, .arr _, h | .int _, .pylist _, h => by simp [Val.beq] at h
  | .str _, .null, h | .str _, .bool _, h | .str _, .int _, h | .str _, .dict _, h
  | .str _, .arr _, h | .str _, .pylist _, h => by simp [Val.beq] at h
  | .dict _, .null, h | .dict _, .bool _, h | .dict _, .int _, h | .dict _, .str _, h
  | .dict _, .arr _, h | .dict _, .pylist _, h => by simp [Val.beq] at h
  | .arr _, .null, h | .arr _, .bool _, h | .arr _, .int _, h | .arr _, .str _, h
  | .arr _, .dict _, h | .arr _, .pylist _, h => by simp [Val.beq] at h
  | .pylist _, .null, h | .pylist _, .bool _, h | .pylist _, .int _, h
  | .pylist _, .str _, h | .pylist _, .dict _, h | .pylist _, .arr _, h => by
      simp [Val.beq] at h
  | .bool a, .bool b, h => by simp [Val.beq] at h; simp [h]
  | .int a, .int b, h => by simp [Val.beq] at h; simp [h]
  | .str a, .str b, h => by simp [Val.beq] at h; simp [h]
  | .dict a, .dict b, h => by
      simp only [Val.beq] at h
      simp [Val.eqFields_of_beq a b h]
  | .arr a, .arr b, h => by
      simp only [Val.beq] at h
      simp [Val.eqList_of_beq a b h]
  | .pylist a, .pylist b, h => by
      simp only [Val.beq] at h
      simp [Val.eqList_of_beq a b h]

def Val.eqList_of_beq : ∀ as bs : List Val, Val.beqList as bs = true → as = bs
  | [], [], _ => rfl
  | [], _ :: _, h => by simp [Val.beqList] at h
  | _ :: _, [], h => by simp [Val.beqList] at h
  | a :: as, b :: bs, h => by
      simp only [Val.beqList, Bool.and_eq_true] at h
      simp [Val.eq_of_beq a b h.1, Val.eqList_of_beq as bs h.2]

def Val.eqFields_of_beq :
    ∀ as bs : List (String × Val), Val.beqFields as bs = true → as = bs
  | [], [], _ => rfl
  | [], _ :: _, h => by simp [Val.beqFields] at h
  | _ :: _, [], h => by simp [Val.beqFields] at h
  | (k, v) :: as, (l, w) :: bs, h => by
      simp only [Val.beqFields, Bool.and_eq_true, beq_iff_eq] at h
      simp [h.1.1, Val.eq_of_beq v w h.1.2, Val.eqFields_of_beq as bs h.2]
end

instance : DecidableEq Val := fun a b =>
  decidable_of_iff (Val.beq a b = true) ⟨Val.eq_of_beq a b, fun h => h ▸ Val.beq_refl a⟩

/-- First-match lookup of a key in a dict's field list (Python dict lookup;
well-formed dicts have distinct keys). -/
def lookupField : List (String × Val) → String → Option Val
  | [], _ => Option.none
  | (k, v) :: rest, key => if k = key then some v else lookupField rest key

/-- Python `d.get(key, default)` on a dict's field list: the stored value if
the key is present (even if that value is `None`), else the default. -/
def dictGetD (fields : List (String × Val)) (key : String) (default : Val) : Val :=
  match lookupField fields key with
  | some v => v
  | Option.none => default

/-- `isinstance(v, dict)`. -/
def Val.isDict : Val → Bool
  | .dict _ => true
  | _ => false

/-- `isinstance(v, str)`. -/
def Val.isStr : Val → Bool
  | .str _ => true
  | _ => false

/-- Python truthiness.  `None`/`False`/`0`/`""`/empty containers are falsy.
numpy's ambiguous truthiness for arrays of size greater than one is
abstracted as plain non-emptiness. -/
def pytruthy : Val → Bool
  | .null => false
  | .bool b => b
  | .int n => n != 0
  | .str s => s != ""
  | .dict fs => !fs.isEmpty
  | .arr es => !es.isEmpty
  | .pylist es => !es.isEmpty

/-- `pd.notna(v)`: false exactly on missing values (`None`; floating-point
NaN is outside the modelled value domain). -/
def pyNotNa : Val → Bool
  | .null => false
  | _ => true

/-- `safe_get(obj, key, default)` from the scripts:
if `isinstance(obj, dict)` return `obj.get(key, default)`, else the default. -/
def safe_get (obj : Val) (key : String) (default : Val) : Val :=
  match obj with
  | .dict fs => dictGetD fs key default
  | _ => default

/-- `safe_get(row, key, default)` where `row` is the pandas Series yielded by
`df.iterrows()`: a Series is **not** a `dict`, so `isinstance(obj, dict)` is
false and `safe_get` returns the default for every key and every record —
the lookup the call suggests never happens
(`export_relational.py` lines 300, 336, 356, 400-419;
`complete_population.py` line 73; `populate_nested_data_fixed.py` line 69).
Contrast `row.get(key)` (pandas `Series.get`), which does read the field
and is modelled by `dictGetD`. -/
def safeGetRow (_fields : List (String × Val)) (_key : String) (default : Val) : Val :=
  default

/-- Python `str(v)` for the value shapes we model.  Container renderings are
abstracted to fixed non-numeric text: only their failure to parse as a
number is observable in the scripts (inside `safe_int`). -/
def pyStr : Val → String
  | .null => "None"
  | .bool true => "True"
  | .bool false => "False"
  | .int n => toString n
  | .str s => s
  | .dict _ => "\x7b...\x7d"
  | .arr _ => "[...]"
  | .pylist _ => "[...]"

/-- Python `str.strip()` (whitespace trim). -/
def pyStrip (s : String) : String :=
  String.mk
    (((s.toList.dropWhile Char.isWhitespace).reverse.dropWhile Char.isWhitespace).reverse)

/-- Parse a run of decimal digits. -/
def parseDigits : List Char → Option Nat
  | [] => Option.none
  | cs => cs.foldl (fun acc c =>
      match acc with
      | some n => if c.isDigit then some (n * 10 + (c.toNat - '0'.toNat)) else Option.none
      | Option.none => Option.none) (some 0)

/-- Python `int(float(s))` on a string, as used by `safe_int`: whitespace is
tolerated, an optional sign, digits, optionally a fractional part (which
`int` truncates toward zero, i.e. drops).  Numerals outside this form
(`inf`, `nan`, exponents, non-numeric text) make `float`/`int` raise, which
the caller's bare `except` turns into the default: modelled as `none`. -/
def pyParseNumber (s : String) : Option Int :=
  let t := (pyStrip s).toList
  let (neg, rest) :=
    match t with
    | '-' :: r => (true, r)
    | '+' :: r => (false, r)
    | r => (false, r)
  let (intPart, fracPart) :=
    match rest.splitOn '.' with
    | [i] => (i, some ([] : List Char))
    | [i, f] => (i, some f)
    | _ => ([], Option.none)
  match fracPart with
  | Option.none => Option.none
  | some f =>
    if intPart = [] then Option.none
    else if f.all Char.isDigit then
      match parseDigits intPart with
      | some n => some (if neg then -(n : Int) else (n : Int))
      | Option.none => Option.none
    else Option.none

/-- Python `int(s)` on a string: optional whitespace, an optional sign and a
non-empty digit run; anything else (a fractional part included — `int("7.5")`
raises, unlike `int(float("7.5"))`) is a `ValueError`, modelled as `none`.
Digit-group underscores are not modelled. -/
def pyParseIntLiteral (s : String) : Option Int :=
  let t := (pyStrip s).toList
  let (neg, rest) :=
    match t with
    | '-' :: r => (true, r)
    | '+' :: r => (false, r)
    | r => (false, r)
  if rest ≠ [] && rest.all Char.isDigit then
    match parseDigits rest with
    | some n => some (if neg then -(n : Int) else (n : Int))
    | Option.none => Option.none
  else Option.none

/-- `safe_int(value, default)` from `populate_nested_data_fixed.py`:
```
try:
    if value and str(value).strip() and str(value) != 'nan':
        return int(float(str(value)))
    return default
except:
    return default
```
The variant without the `'nan'` guard (`populate_nested_data.py`,
`export_relational.py`) behaves identically: `int(float("nan"))` raises and
the `except` returns the default.  The function is total (never raises):
every parse failure lands on the default. -/
def safe_int (value : Val) (default : Option Int) : Option Int :=
  if pytruthy value && pyStrip (pyStr value) != "" && pyStr value != "nan" then
    match pyParseNumber (pyStr value) with
    | some n => some n
    | Option.none => default
  else default

/-- `is_valid_array(arr)` from `populate_nested_data_fixed.py`:
`isinstance(arr, np.ndarray) and arr.size > 0`. -/
def is_valid_array : Val → Bool
  | .arr es => !es.isEmpty
  | _ => false

/-- Elements of an array value (used only under an `is_valid_array` /
`isinstance(..., np.ndarray)` guard). -/
def Val.elems : Val → List Val
  | .arr es => es
  | .pylist es => es
  | _ => []

/-- `arr.tolist() if isinstance(arr, np.ndarray) else arr`:
numpy-to-Python-list conversion before JSON serialization. -/
def pylistify : Val → Val
  | .arr es => .pylist es
  | v => v

/-- JSON string escaping for the two characters `json.dumps` must always
escape in our value domain. -/
def jsonEscapeChar (c : Char) : String :=
  if c = '"' then "\\\""
  else if c = '\\' then "\\\\"
  else String.singleton c

mutual
/-- `json.dumps` on the modelled values (default separators).  numpy arrays
are rendered like lists (the scripts convert them with `tolist()` before
dumping). -/
def jsonDumps : Val → String
  | .null => "null"
  | .bool true => "true"
  | .bool false => "false"
  | .int n => toString n
  | .str s => "\"" ++ String.join (s.toList.map jsonEscapeChar) ++ "\""
  | .dict fs => "\x7b" ++ jsonDumpsFields fs ++ "\x7d"
  | .arr es => "[" ++ jsonDumpsList es ++ "]"
  | .pylist es => "[" ++ jsonDumpsList es ++ "]"

def jsonDumpsList : List Val → String
  | [] => ""
  | [v] => jsonDumps v
  | v :: vs => jsonDumps v ++ ", " ++ jsonDumpsList vs

def jsonDumpsFields : List (String × Val) → String
  | [] => ""
  | [(k, v)] => "\"" ++ k ++ "\": " ++ jsonDumps v
  | (k, v) :: fs => "\"" ++ k ++ "\": " ++ jsonDumps v ++ ", " ++ jsonDumpsFields fs
end

/-- Truthiness of a `person_id`-style optional id, as in `if person_id:`
(a missing id is `None`; id `0` would also be falsy, though SERIAL ids
start at 1). -/
def optTruthy : Option Nat → Bool
  | some n => n != 0
  | Option.none => false

/-- First-match lookup in an in-memory natural-key map
(`person_map` / `firm_map` / `location_map` / `company_map` / `school_map`:
Python dicts keyed by the natural-key value). -/
def lookupV : List (Val × Nat) → Val → Option Nat
  | [], _ => Option.none
  | (k, i) :: rest, key => if k = key then some i else lookupV rest key

/-- The in-memory natural-key registry of one dimension table, as every
script maintains it: a Python dict from natural key to assigned id
(`person_map`, `firm_map`, `company_map`, ...), the rows inserted so far,
and the next SERIAL id the database will assign. -/
structure Registry (R : Type) where
  map : List (Val × Nat)
  rows : List R
  nextId : Nat

/-- The shared `if key not in map: INSERT ... RETURNING id; map[key] = id
else: id = map[key]` pattern of all the scripts: look the natural key up;
on a miss, insert one new row built from the freshly assigned id and
register it; on a hit, return the existing id and leave everything
unchanged. -/
def Registry.getOrCreate {R : Type} (reg : Registry R) (k : Val) (mk : Nat → R) :
    Nat × Registry R :=
  match lookupV reg.map k with
  | some i => (i, reg)
  | Option.none =>
      (reg.nextId,
        { map := reg.map ++ [(k, reg.nextId)],
          rows := reg.rows ++ [mk reg.nextId],
          nextId := reg.nextId + 1 })

/-- The empty registry of a freshly created table (SERIAL ids start at 1). -/
def Registry.empty (R : Type) : Registry R := ⟨[], [], 1⟩

/-- Registry well-formedness: the inserted rows correspond one-to-one, in
order, to the map entries, and no natural key occurs twice. -/
def RegInv {R : Type} (keyOf : R → Val) (idOf : R → Nat) (reg : Registry R) : Prop :=
  reg.rows.map (fun r => (keyOf r, idOf r)) = reg.map ∧ (reg.map.map Prod.fst).Nodup

/-! ## `export_relational.py` — `process_investor_data` (lines 281-432)

One pass over the records; per record it resolves/creates the Person, the
Location and the Firm dimension rows through in-memory natural-key maps and
then inserts exactly one Investor fact row carrying the resolved ids. -/
/-- A row of `persons` as inserted by `process_investor_data`
(`export_relational.py` lines 307-329). -/
structure PersonRow where
  id : Nat
  slug : Val
  first_name : Val
  last_name : Val
  name : Val
  linkedin_url : Val
  facebook_url : String
  twitter_url : Val
  crunchbase_url : Val
  angellist_url : Val
  url : Val
  is_me : Val
  first_degree_count : Option Int
  is_on_target_list : Val

/-- A row of `firms` (`export_relational.py` lines 363-371). -/
structure FirmRow where
  id : Nat
  name : Val
  slug : Val
  current_fund_size : Val

/-- A row of `locations` (`export_relational.py` lines 342-349). -/
structure LocationRow where
  id : Nat
  display_name : Val
  kind : Val

/-- A row of `investors` (`export_relational.py` lines 378-420). -/
structure InvestorRow where
  id : Nat
  person_id : Option Nat
  firm_id : Option Nat
  location_id : Option Nat
  position : Val
  headline : Val
  previous_position : Val
  previous_firm : Val
  min_investment : Val
  max_investment : Val
  target_investment : Val
  areas_of_interest_freeform : Val
  no_current_interest_freeform : Val
  vote_count : Option Int
  leads_rounds : Val
  claimed : Val
  can_edit : Val
  include_in_list : Val
  in_founder_investor_list : Val
  in_diverse_investor_list : Val
  in_female_investor_list : Val
  in_invests_in_diverse_founders_investor_list : Val
  in_invests_in_female_founders_investor_list : Val
  has_profile_vote : Val

/-- `person_data = safe_get(row, 'person', {})` — `row` is a pandas Series,
so this is constantly the empty dict: the Person branch below is dead
code in the source. -/
def personDataOf (fields : List (String × Val)) : Val :=
  safeGetRow fields "person" (Val.dict [])

/-- The Person natural key the record resolves to, if any:
`if person_data and isinstance(person_data, dict):
person_slug = safe_get(person_data, 'slug', f'person_{idx}')`.
Since `person_data` is constantly `{}` (falsy), this is constantly `none`:
`process_investor_data` never resolves a Person key. -/
def personKeyA (idx : Nat) (fields : List (String × Val)) : Option Val :=
  if pytruthy (personDataOf fields) && (personDataOf fields).isDict then
    some (safe_get (personDataOf fields) "slug" (Val.str ("person_" ++ toString idx)))
  else Option.none

/-- Payload of the `INSERT INTO persons` statement. -/
def mkPersonRow (pd : Val) (slug : Val) (i : Nat) : PersonRow :=
  { id := i
    slug := slug
    first_name := safe_get pd "first_name" Val.null
    last_name := safe_get pd "last_name" Val.null
    name := safe_get pd "name" Val.null
    linkedin_url := safe_get pd "linkedin_url" Val.null
    facebook_url := pyStr (safe_get pd "facebook_url" (Val.str ""))
    twitter_url := safe_get pd "twitter_url" Val.null
    crunchbase_url := safe_get pd "crunchbase_url" Val.null
    angellist_url := safe_get pd "angellist_url" Val.null
    url := safe_get pd "url" Val.null
    is_me := safe_get pd "is_me" (Val.bool false)
    first_degree_count := safe_int (safe_get pd "first_degree_count" Val.null) Option.none
    is_on_target_list := safe_get pd "is_on_target_list" (Val.bool false) }

/-- Step 1 of the per-record body: resolve or insert the Person
(`export_relational.py` lines 299-333).  The source's
`if slug not in person_map: INSERT ...; person_map[slug] = id
else: id = person_map[slug]` is the registry's get-or-create. -/
def personStepA (idx : Nat) (fields : List (String × Val)) (reg : Registry PersonRow) :
    Option Nat × Registry PersonRow :=
  match personKeyA idx fields with
  | some slug =>
      let res := reg.getOrCreate slug (mkPersonRow (personDataOf fields) slug)
      (some res.1, res.2)
  | Option.none => (Option.none, reg)

/-- `location_data = safe_get(row, 'location', {})` — constantly the empty
dict (`row` is a Series): the Location branch is dead code. -/
def locationDataOf (fields : List (String × Val)) : Val :=
  safeGetRow fields "location" (Val.dict [])

/-- The Location natural key (`display_name`), if truthy
(`export_relational.py` lines 336-353). -/
def locationKeyA (fields : List (String × Val)) : Option Val :=
  if pytruthy (locationDataOf fields) && (locationDataOf fields).isDict then
    let location_name := safe_get (locationDataOf fields) "display_name" Val.null
    if pytruthy location_name then some location_name else Option.none
  else Option.none

/-- Step 2: resolve or insert the Location. -/
def locationStepA (fields : List (String × Val)) (reg : Registry LocationRow) :
    Option Nat × Registry LocationRow :=
  match locationKeyA fields with
  | some location_name =>
      let res := reg.getOrCreate location_name (fun i =>
        { id := i
          display_name := location_name
          kind := safe_get (locationDataOf fields) "kind" (Val.str "location") })
      (some res.1, res.2)
  | Option.none => (Option.none, reg)

/-- `firm_data = safe_get(row, 'firm', {})` — constantly the empty dict
(`row` is a Series): the Firm branch is dead code. -/
def firmDataOf (fields : List (String × Val)) : Val :=
  safeGetRow fields "firm" (Val.dict [])

/-- The Firm natural key (`slug`, synthesized fallback `f'firm_{idx}'`;
`export_relational.py` lines 356-375). -/
def firmKeyA (idx : Nat) (fields : List (String × Val)) : Option Val :=
  if pytruthy (firmDataOf fields) && (firmDataOf fields).isDict then
    some (safe_get (firmDataOf fields) "slug" (Val.str ("firm_" ++ toString idx)))
  else Option.none

/-- Step 3: resolve or insert the Firm. -/
def firmStepA (idx : Nat) (fields : List (String × Val)) (reg : Registry FirmRow) :
    Option Nat × Registry FirmRow :=
  match firmKeyA idx fields with
  | some slug =>
      let res := reg.getOrCreate slug (fun i =>
        { id := i
          name := safe_get (firmDataOf fields) "name" Val.null
          slug := slug
          current_fund_size := safe_get (firmDataOf fields) "current_fund_size" Val.null })
      (some res.1, res.2)
  | Option.none => (Option.none, reg)

/-- Step 4: the Investor fact row (`export_relational.py` lines 378-420),
built via `safe_get(row, ...)` on the Series — so every scalar field is
constantly its default — plus the three resolved dimension ids; always
emitted. -/
def investorRowA (i : Nat) (pid fid lid : Option Nat)
    (fields : List (String × Val)) : InvestorRow :=
  { id := i
    person_id := pid
    firm_id := fid
    location_id := lid
    position := safeGetRow fields "position" Val.null
    headline := safeGetRow fields "headline" Val.null
    previous_position := safeGetRow fields "previous_position" Val.null
    previous_firm := safeGetRow fields "previous_firm" Val.null
    min_investment := safeGetRow fields "min_investment" Val.null
    max_investment := safeGetRow fields "max_investment" Val.null
    target_investment := safeGetRow fields "target_investment" Val.null
    areas_of_interest_freeform := safeGetRow fields "areas_of_interest_freeform" Val.null
    no_current_interest_freeform := safeGetRow fields "no_current_interest_freeform" Val.null
    vote_count := safe_int (safeGetRow fields "vote_count" Val.null) (some 0)
    leads_rounds := safeGetRow fields "leads_rounds" Val.null
    claimed := safeGetRow fields "claimed" (Val.bool false)
    can_edit := safeGetRow fields "can_edit" (Val.bool false)
    include_in_list := safeGetRow fields "include_in_list" (Val.bool false)
    in_founder_investor_list := safeGetRow fields "in_founder_investor_list" (Val.bool false)
    in_diverse_investor_list := safeGetRow fields "in_diverse_investor_list" (Val.bool false)
    in_female_investor_list := safeGetRow fields "in_female_investor_list" (Val.bool false)
    in_invests_in_diverse_founders_investor_list :=
      safeGetRow fields "in_invests_in_diverse_founders_investor_list" (Val.bool false)
    in_invests_in_female_founders_investor_list :=
      safeGetRow fields "in_invests_in_female_founders_investor_list" (Val.bool false)
    has_profile_vote := safeGetRow fields "has_profile_vote" (Val.bool false) }

/-- Mutable state of `process_investor_data`: the three dimension registries
plus the investors table. -/
structure RelState where
  persons : Registry PersonRow
  firms : Registry FirmRow
  locations : Registry LocationRow
  investors : List InvestorRow
  nextInvestorId : Nat

/-- One iteration of the record loop (`export_relational.py` lines 294-427),
in source order: Person, Location, Firm, then the Investor insert. -/
def processA (st : RelState) (idx : Nat) (fields : List (String × Val)) : RelState :=
  let pres := personStepA idx fields st.persons
  let lres := locationStepA fields st.locations
  let fres := firmStepA idx fields st.firms
  { persons := pres.2
    firms := fres.2
    locations := lres.2
    investors := st.investors ++ [investorRowA st.nextInvestorId pres.1 fres.1 lres.1 fields]
    nextInvestorId := st.nextInvestorId + 1 }

/-- The record loop, carrying the 0-based dataframe index `idx`. -/
def runA : List (List (String × Val)) → Nat → RelState → RelState
  | [], _, st => st
  | fields :: rest, idx, st => runA rest (idx + 1) (processA st idx fields)

/-- Fresh state after `create_relational_schema` (empty tables, SERIAL
counters at 1). -/
def initRelState : RelState :=
  ⟨Registry.empty PersonRow, Registry.empty FirmRow, Registry.empty LocationRow, [], 1⟩

/-- A full `process_investor_data` run from a fresh schema. -/
def runRelational (records : List (List (String × Val))) : RelState :=
  runA records 0 initRelState

/-- A two-record input sharing the Person natural key `"a"`. -/
def c1recA : List (String × Val) :=
  [("person", Val.dict [("slug", Val.str "a"), ("name", Val.str "Alice")])]

/-! ## `complete_population.py` — `process_all_nested_data` (lines 27-311)

Second pass over the records: for each record ordinal `idx` the Investor
surrogate id is assumed to be `idx + 1`, the Person id is looked up in the
pre-populated `person_map`, and the nested child rows are extracted.  The
per-record body has **no** try/except: a record-level failure propagates
and aborts the run (only `main` catches it). -/
/-- A child row keyed by `kind`/`display_name`
(areas_of_interest, investment_locations, investor_stages). -/
structure KindDisplayRow where
  investor_id : Nat
  kind : Val
  display_name : Val

/-- A row of `image_urls`. -/
structure ImageRow where
  investor_id : Nat
  url : String
  is_edit_mode : Bool

/-- A row of `media_links`. -/
structure MediaRow where
  investor_id : Nat
  url : Val
  title : Val
  image_url : Val

/-- A draft `positions` row as collected by `complete_population.py`
(lines 159-169; company still by name, resolved in the post-pass). -/
structure PosRowC where
  person_id : Nat
  company_name : Val
  company_display_name : Val
  company_employee_count : Val
  title : Val
  start_month : Val
  start_year : Val
  end_month : Val
  end_year : Val

/-- A draft `degrees` row (`complete_population.py` lines 179-186). -/
structure DegRowC where
  person_id : Nat
  school_name : Val
  school_display_name : Val
  school_student_count : Val
  degree_name : Val
  field_of_study : Val

/-- A row of `investments` (shape shared by `complete_population.py`
lines 202-206 and `populate_nested_data_fixed.py` lines 179-183). -/
structure InvRow where
  investor_id : Nat
  company_display_name : Val
  total_raised_json : Option String

/-- Person-id resolution of the fact/child pass (`complete_population.py`
lines 72-77; `populate_nested_data_fixed.py` lines 68-77 do the same
lookup against the persons table).  `person_data` comes from
`safe_get(row, 'person', {})` on the Series row, so it is constantly the
empty (falsy) dict and `person_id` is constantly `None`: the
Position/Degree sections guarded by it never execute in either script. -/
def personIdC (pm : List (Val × Nat)) (idx : Nat)
    (fields : List (String × Val)) : Option Nat :=
  if (personDataOf fields).isDict && pytruthy (personDataOf fields) then
    lookupV pm (safe_get (personDataOf fields) "slug"
      (Val.str ("person_" ++ toString idx)))
  else Option.none

/-- Shared extraction of a `kind`/`display_name` child array
(`complete_population.py` lines 79-110, `populate_nested_data_fixed.py`
lines 185-216): guarded by `isinstance(..., np.ndarray) and size > 0`
(which is exactly `is_valid_array`), one row per dict element, non-dict
elements skipped. -/
def kindDisplayRows (field : String) (idx : Nat)
    (fields : List (String × Val)) : List KindDisplayRow :=
  let xs := dictGetD fields field Val.null
  if is_valid_array xs then
    xs.elems.filterMap (fun a =>
      if a.isDict then
        some ⟨idx + 1, safe_get a "kind" Val.null, safe_get a "display_name" Val.null⟩
      else Option.none)
  else []

/-- `areas_of_interest` extraction (`complete_population.py` lines 79-88). -/
def areasComplete (idx : Nat) (fields : List (String × Val)) : List KindDisplayRow :=
  kindDisplayRows "areas_of_interest" idx fields

/-- `investment_locations` extraction (lines 90-99). -/
def invLocationsComplete (idx : Nat) (fields : List (String × Val)) : List KindDisplayRow :=
  kindDisplayRows "investment_locations" idx fields

/-- `stages` extraction (lines 101-110). -/
def stagesComplete (idx : Nat) (fields : List (String × Val)) : List KindDisplayRow :=
  kindDisplayRows "stages" idx fields

/-- One image-url source array (lines 112-132): only truthy strings kept. -/
def imageRows (field : String) (editMode : Bool) (idx : Nat)
    (fields : List (String × Val)) : List ImageRow :=
  let xs := dictGetD fields field Val.null
  if is_valid_array xs then
    xs.elems.filterMap (fun img =>
      if pytruthy img && img.isStr then some ⟨idx + 1, pyStr img, editMode⟩
      else Option.none)
  else []

/-- Both image-url arrays merged with the edit-mode flag. -/
def imagesComplete (idx : Nat) (fields : List (String × Val)) : List ImageRow :=
  imageRows "image_urls" false idx fields ++
    imageRows "image_urls_edit_mode" true idx fields

/-- `media_links` extraction (lines 134-144). -/
def mediaComplete (idx : Nat) (fields : List (String × Val)) : List MediaRow :=
  let xs := dictGetD fields "media_links" Val.null
  if is_valid_array xs then
    xs.elems.filterMap (fun m =>
      if m.isDict then
        some ⟨idx + 1, safe_get m "url" Val.null, safe_get m "title" Val.null,
          safe_get m "image_url" Val.null⟩
      else Option.none)
  else []

/-- One draft position row (`complete_population.py` lines 152-169). -/
def positionRowC (person_id : Nat) (pos : Val) : PosRowC :=
  let company_data := safe_get pos "company" (Val.dict [])
  let start_date := safe_get pos "start_date" (Val.dict [])
  let end_date := safe_get pos "end_date" (Val.dict [])
  { person_id := person_id
    company_name :=
      if pytruthy company_data then safe_get company_data "name" Val.null else Val.null
    company_display_name :=
      if pytruthy company_data then safe_get company_data "display_name" Val.null
      else Val.null
    company_employee_count :=
      if pytruthy company_data then safe_get company_data "total_employee_count" Val.null
      else Val.null
    title := safe_get pos "title" Val.null
    start_month :=
      if start_date.isDict then safe_get start_date "month" Val.null else Val.null
    start_year :=
      if start_date.isDict then safe_get start_date "year" Val.null else Val.null
    end_month :=
      if end_date.isDict then safe_get end_date "month" Val.null else Val.null
    end_year :=
      if end_date.isDict then safe_get end_date "year" Val.null else Val.null }

/-- Position extraction (`complete_population.py` lines 146-169): only when
`person_id` is truthy; one draft row per dict element. -/
def positionsComplete (idx : Nat) (pm : List (Val × Nat))
    (fields : List (String × Val)) : List PosRowC :=
  let person_id := personIdC pm idx fields
  if optTruthy person_id then
    let xs := dictGetD fields "positions" Val.null
    if is_valid_array xs then
      xs.elems.filterMap (fun pos =>
        if pos.isDict then some (positionRowC (person_id.getD 0) pos) else Option.none)
    else []
  else []

/-- One draft degree row (`complete_population.py` lines 174-186). -/
def degreeRowC (person_id : Nat) (deg : Val) : DegRowC :=
  let school_data := safe_get deg "school" (Val.dict [])
  { person_id := person_id
    school_name :=
      if pytruthy school_data then safe_get school_data "name" Val.null else Val.null
    school_display_name :=
      if pytruthy school_data then safe_get school_data "display_name" Val.null
      else Val.null
    school_student_count :=
      if pytruthy school_data then safe_get school_data "total_student_count" Val.null
      else Val.null
    degree_name := safe_get deg "name" Val.null
    field_of_study := safe_get deg "field_of_study" Val.null }

/-- Degree extraction (`complete_population.py` lines 171-186): only when
`person_id` is truthy. -/
def degreesComplete (idx : Nat) (pm : List (Val × Nat))
    (fields : List (String × Val)) : List DegRowC :=
  let person_id := personIdC pm idx fields
  if optTruthy person_id then
    let xs := dictGetD fields "degrees" Val.null
    if is_valid_array xs then
      xs.elems.filterMap (fun deg =>
        if deg.isDict then some (degreeRowC (person_id.getD 0) deg) else Option.none)
    else []
  else []

/-- `total_raised` serialization of `complete_population.py` (lines 197-205):
numpy arrays are converted with `tolist()` first, and an **empty or falsy**
payload stores SQL NULL (`json.dumps(total_raised) if total_raised else
None`). -/
def serializeTotalRaisedComplete (tr0 : Val) : Option String :=
  let total_raised := pylistify tr0
  if pytruthy total_raised then some (jsonDumps total_raised) else Option.none

/-- Investment extraction of `complete_population.py` (lines 188-206):
every dict-shaped inner node yields a row — there is **no** guard on
`company_display_name`. -/
def investmentsComplete (idx : Nat) (fields : List (String × Val)) : List InvRow :=
  let investments := dictGetD fields "investments_on_record" Val.null
  if investments.isDict then
    let edges := safe_get investments "edges" (Val.pylist [])
    if is_valid_array edges then
      edges.elems.filterMap (fun edge =>
        if edge.isDict then
          let node := safe_get edge "node" (Val.dict [])
          if node.isDict then
            some ⟨idx + 1, safe_get node "company_display_name" Val.null,
              serializeTotalRaisedComplete (safe_get node "total_raised" (Val.pylist []))⟩
          else Option.none
        else Option.none)
    else []
  else []

/-- Accumulated batches of `process_all_nested_data`. -/
structure CState where
  positions : List PosRowC
  degrees : List DegRowC
  investments : List InvRow
  areas : List KindDisplayRow
  invLocations : List KindDisplayRow
  stages : List KindDisplayRow
  images : List ImageRow
  media : List MediaRow

/-- One iteration of the `complete_population.py` record loop (lines 66-206). -/
def extractComplete (pm : List (Val × Nat)) (idx : Nat)
    (fields : List (String × Val)) (st : CState) : CState :=
  { positions := st.positions ++ positionsComplete idx pm fields
    degrees := st.degrees ++ degreesComplete idx pm fields
    investments := st.investments ++ investmentsComplete idx fields
    areas := st.areas ++ areasComplete idx fields
    invLocations := st.invLocations ++ invLocationsComplete idx fields
    stages := st.stages ++ stagesComplete idx fields
    images := st.images ++ imagesComplete idx fields
    media := st.media ++ mediaComplete idx fields }

/-- Failure message for a record whose top-level structure is not a mapping:
every field access of the per-record body fails on it. -/
def recErrMsg : String := "unexpected top-level type"

/-- Processing one record in `complete_population.py`: a non-mapping record
makes the body raise. -/
def processRecordComplete (pm : List (Val × Nat)) (idx : Nat) (r : Val)
    (st : CState) : Except String CState :=
  match r with
  | Val.dict fields => Except.ok (extractComplete pm idx fields st)
  | _ => Except.error recErrMsg

/-- The `complete_population.py` record loop: **no** per-record handler, so
the first failing record aborts the whole run. -/
def runCompleteAux (pm : List (Val × Nat)) :
    List Val → Nat → CState → Except String CState
  | [], _, st => Except.ok st
  | r :: rs, idx, st =>
    match processRecordComplete pm idx r st with
    | Except.ok st' => runCompleteAux pm rs (idx + 1) st'
    | Except.error e => Except.error e

/-- Empty batch state. -/
def initCState : CState := ⟨[], [], [], [], [], [], [], []⟩

/-! ## `populate_nested_data_fixed.py` — `process_nested_data` (lines 42-289)

Same fact/child pass, but Company/School dimension rows are created lazily
through in-memory maps while extracting positions/degrees, an Investment
row requires a truthy `company_display_name`, and the whole per-record body
sits inside `try: ... except: print(error, idx); continue`. -/
/-- A row of `companies` (`populate_nested_data_fixed.py` lines 94-102). -/
structure CompanyRow where
  id : Nat
  name : Val
  display_name : Val
  total_employee_count : Option Int

/-- A row of `schools` (lines 141-149). -/
structure SchoolRow where
  id : Nat
  name : Val
  display_name : Val
  total_student_count : Option Int

/-- A `positions` row with the company resolved to a (nullable) id
(lines 116-124). -/
structure PosRowF where
  person_id : Nat
  company_id : Option Nat
  title : Val
  start_month : Val
  start_year : Val
  end_month : Val
  end_year : Val

/-- A `degrees` row (lines 159-164). -/
structure DegRowF where
  person_id : Nat
  school_id : Option Nat
  degree_name : Val
  field_of_study : Val

/-- The Company natural key a nested position's `company` object resolves
to, if any (`populate_nested_data_fixed.py` lines 85-90: the object must be
a non-empty dict with a truthy `name`). -/
def companyKeyF (company_data : Val) : Option Val :=
  if company_data.isDict && pytruthy company_data then
    let company_name := safe_get company_data "name" Val.null
    if pytruthy company_name then some company_name else Option.none
  else Option.none

/-- Lazy Company resolution inside a position element (lines 84-110):
if the company object resolves to a natural key, get or create the Company
row by name (`if company_name not in company_map: INSERT ...;
company_map[name] = id else: id = company_map[name]`); otherwise the
foreign key stays null. -/
def registerCompanyF (company_data : Val) (reg : Registry CompanyRow) :
    Option Nat × Registry CompanyRow :=
  match companyKeyF company_data with
  | some company_name =>
      let res := reg.getOrCreate company_name (fun i =>
        { id := i
          name := company_name
          display_name := safe_get company_data "display_name" company_name
          total_employee_count :=
            safe_int (safe_get company_data "total_employee_count" Val.null) Option.none })
      (some res.1, res.2)
  | Option.none => (Option.none, reg)

/-- The School natural key a nested degree's `school` object resolves to,
if any (lines 132-137). -/
def schoolKeyF (school_data : Val) : Option Val :=
  if school_data.isDict && pytruthy school_data then
    let school_name := safe_get school_data "name" Val.null
    if pytruthy school_name then some school_name else Option.none
  else Option.none

/-- Lazy School resolution inside a degree element (lines 131-157). -/
def registerSchoolF (school_data : Val) (reg : Registry SchoolRow) :
    Option Nat × Registry SchoolRow :=
  match schoolKeyF school_data with
  | some school_name =>
      let res := reg.getOrCreate school_name (fun i =>
        { id := i
          name := school_name
          display_name := safe_get school_data "display_name" school_name
          total_student_count :=
            safe_int (safe_get school_data "total_student_count" Val.null) Option.none })
      (some res.1, res.2)
  | Option.none => (Option.none, reg)

/-- One `positions` row (lines 112-124). -/
def positionRowF (person_id : Nat) (company_id : Option Nat) (pos : Val) : PosRowF :=
  let start_date := safe_get pos "start_date" (Val.dict [])
  let end_date := safe_get pos "end_date" (Val.dict [])
  { person_id := person_id
    company_id := company_id
    title := safe_get pos "title" Val.null
    start_month :=
      if start_date.isDict then safe_get start_date "month" Val.null else Val.null
    start_year :=
      if start_date.isDict then safe_get start_date "year" Val.null else Val.null
    end_month :=
      if end_date.isDict then safe_get end_date "month" Val.null else Val.null
    end_year :=
      if end_date.isDict then safe_get end_date "year" Val.null else Val.null }

/-- The loop over one record's positions array (lines 82-124), threading the
company registry; non-dict elements are skipped. -/
def positionsFoldF (person_id : Nat) :
    List Val → Registry CompanyRow → List PosRowF × Registry CompanyRow
  | [], reg => ([], reg)
  | pos :: rest, reg =>
    if pos.isDict then
      let cres := registerCompanyF (safe_get pos "company" (Val.dict [])) reg
      let rres := positionsFoldF person_id rest cres.2
      (positionRowF person_id cres.1 pos :: rres.1, rres.2)
    else positionsFoldF person_id rest reg

/-- Position section of one record (lines 79-124):
`if is_valid_array(positions_data) and person_id:`. -/
def positionsStepF (fields : List (String × Val)) (person_id : Option Nat)
    (reg : Registry CompanyRow) : List PosRowF × Registry CompanyRow :=
  let positions_data := dictGetD fields "positions" Val.null
  if is_valid_array positions_data && optTruthy person_id then
    positionsFoldF (person_id.getD 0) positions_data.elems reg
  else ([], reg)

/-- One `degrees` row (lines 159-164). -/
def degreeRowF (person_id : Nat) (school_id : Option Nat) (deg : Val) : DegRowF :=
  { person_id := person_id
    school_id := school_id
    degree_name := safe_get deg "name" Val.null
    field_of_study := safe_get deg "field_of_study" Val.null }

/-- The loop over one record's degrees array (lines 129-164). -/
def degreesFoldF (person_id : Nat) :
    List Val → Registry SchoolRow → List DegRowF × Registry SchoolRow
  | [], reg => ([], reg)
  | deg :: rest, reg =>
    if deg.isDict then
      let sres := registerSchoolF (safe_get deg "school" (Val.dict [])) reg
      let rres := degreesFoldF person_id rest sres.2
      (degreeRowF person_id sres.1 deg :: rres.1, rres.2)
    else degreesFoldF person_id rest reg

/-- Degree section of one record (lines 126-164). -/
def degreesStepF (fields : List (String × Val)) (person_id : Option Nat)
    (reg : Registry SchoolRow) : List DegRowF × Registry SchoolRow :=
  let degrees_data := dictGetD fields "degrees" Val.null
  if is_valid_array degrees_data && optTruthy person_id then
    degreesFoldF (person_id.getD 0) degrees_data.elems reg
  else ([], reg)

/-- `total_raised` serialization of `populate_nested_data_fixed.py`
(line 182): the guard is `is not None`, so an absent/empty payload (which
defaults to `[]`) is serialized as `"[]"`; only a literal null stores SQL
NULL. -/
def serializeTotalRaisedFixed (total_raised : Val) : Option String :=
  if total_raised = Val.null then Option.none
  else some (jsonDumps (pylistify total_raised))

/-- Investment extraction of `populate_nested_data_fixed.py` (lines 166-183):
a row is emitted only when the node's `company_display_name` is truthy. -/
def investmentsFixed (idx : Nat) (fields : List (String × Val)) : List InvRow :=
  let investments_data := dictGetD fields "investments_on_record" Val.null
  if investments_data.isDict then
    let edges := safe_get investments_data "edges" (Val.pylist [])
    if is_valid_array edges then
      edges.elems.filterMap (fun edge =>
        if edge.isDict then
          let node := safe_get edge "node" (Val.dict [])
          if node.isDict then
            let company_name := safe_get node "company_display_name" Val.null
            let total_raised := safe_get node "total_raised" (Val.pylist [])
            if pytruthy company_name then
              some ⟨idx + 1, company_name, serializeTotalRaisedFixed total_raised⟩
            else Option.none
          else Option.none
        else Option.none)
    else []
  else []

/-- Mutable state of `process_nested_data`: the two lazily populated
dimension registries plus all child batches. -/
structure FixedState where
  companies : Registry CompanyRow
  schools : Registry SchoolRow
  positions : List PosRowF
  degrees : List DegRowF
  investments : List InvRow
  areas : List KindDisplayRow
  invLocations : List KindDisplayRow
  stages : List KindDisplayRow
  images : List ImageRow
  media : List MediaRow

/-- One iteration of the `populate_nested_data_fixed.py` record loop
(lines 65-250); sections 4-8 are behaviorally identical to the
`complete_population.py` ones and share their embedding. -/
def extractFixed (pm : List (Val × Nat)) (idx : Nat)
    (fields : List (String × Val)) (st : FixedState) : FixedState :=
  let person_id := personIdC pm idx fields
  let pres := positionsStepF fields person_id st.companies
  let dres := degreesStepF fields person_id st.schools
  { companies := pres.2
    schools := dres.2
    positions := st.positions ++ pres.1
    degrees := st.degrees ++ dres.1
    investments := st.investments ++ investmentsFixed idx fields
    areas := st.areas ++ kindDisplayRows "areas_of_interest" idx fields
    invLocations := st.invLocations ++ kindDisplayRows "investment_locations" idx fields
    stages := st.stages ++ kindDisplayRows "stages" idx fields
    images := st.images ++ imagesComplete idx fields
    media := st.media ++ mediaComplete idx fields }

/-- Processing one record in `populate_nested_data_fixed.py`: a non-mapping
record makes the body raise, which the per-record `except` will catch. -/
def processRecordFixed (pm : List (Val × Nat)) (idx : Nat) (r : Val)
    (st : FixedState) : Except String FixedState :=
  match r with
  | Val.dict fields => Except.ok (extractFixed pm idx fields st)
  | _ => Except.error recErrMsg

/-- The `populate_nested_data_fixed.py` record loop (lines 61-254): each
record body runs under `try`, a failure is recorded against the record's
ordinal and the loop continues with the state unchanged by the bad
record. -/
def runFixedAux (pm : List (Val × Nat)) :
    List Val → Nat → FixedState → FixedState × List (Nat × String)
  | [], _, st => (st, [])
  | r :: rs, idx, st =>
    match processRecordFixed pm idx r st with
    | Except.ok st' => runFixedAux pm rs (idx + 1) st'
    | Except.error e =>
        let res := runFixedAux pm rs (idx + 1) st
        (res.1, (idx, e) :: res.2)

/-- Fresh state: empty maps (`school_map = {}; company_map = {}`), empty
batches, SERIAL counters at 1. -/
def initFixedState : FixedState :=
  ⟨Registry.empty CompanyRow, Registry.empty SchoolRow, [], [], [], [], [], [], [], []⟩

/-! ## `export_relational_fast.py` — `extract_and_bulk_insert` (lines 228-377)

Dimension pass first (bulk insert with `drop_duplicates`), then a second
loop that emits exactly one Investor row per record, unconditionally, with
the dimension ids resolved from the freshly read maps.  The table is
freshly created, so the SERIAL ids assigned on append are 1, 2, 3, ... in
loop order. -/
/-- A row of `investors` as built by the fast script (lines 338-362). -/
structure FastInvestorRow where
  id : Nat
  person_id : Option Nat
  firm_id : Option Nat
  location_id : Option Nat
  position : Val
  headline : Val
  previous_position : Val
  previous_firm : Val
  min_investment : Val
  max_investment : Val
  target_investment : Val
  areas_of_interest_freeform : Val
  no_current_interest_freeform : Val
  vote_count : Int
  leads_rounds : Val
  claimed : Bool
  can_edit : Bool
  include_in_list : Bool
  in_founder_investor_list : Bool
  in_diverse_investor_list : Bool
  in_female_investor_list : Bool
  in_invests_in_diverse_founders_investor_list : Bool
  in_invests_in_female_founders_investor_list : Bool
  has_profile_vote : Bool

/-- `row.get(key, default) if pd.notna(row.get(key)) else default`. -/
def notNaGet (fields : List (String × Val)) (key : String) (default : Val) : Val :=
  if pyNotNa (dictGetD fields key Val.null) then dictGetD fields key default
  else default

/-- Python `int(x)`, partial as in the source: `ValueError` on a
non-numeric string, `TypeError` on `None`/dicts/arrays (the size-1 numeric
ndarray, which real `int()` accepts, is excluded from the modelled clean
domain as well).  The unguarded fast script has no handler for these. -/
def pyIntE : Val → Except String Int
  | .int n => Except.ok n
  | .bool b => Except.ok (if b then 1 else 0)
  | .str s =>
      match pyParseIntLiteral s with
      | some n => Except.ok n
      | Option.none => Except.error "ValueError: invalid literal for int()"
  | _ => Except.error "TypeError: int() argument"

/-- Total stand-in for `int(x)` on the clean-record domain: it agrees with
`pyIntE` wherever `pyIntE` succeeds (see `pyIntE_of_ok`) and is meaningless
elsewhere — the faithful, raising behavior is `pyIntE`. -/
def pyIntCoerce : Val → Int
  | .int n => n
  | .bool b => if b then 1 else 0
  | v => (pyParseIntLiteral (pyStr v)).getD 0

/-- `pd.notna(x)`, partial as in the source: on an array or list `pd.notna`
is elementwise, so `if pd.notna(x)` raises (the size-1 degeneracy, where
numpy truthiness falls back to the element, is excluded from the modelled
clean domain as well). -/
def pyNotNaE : Val → Except String Bool
  | .arr _ => Except.error "ValueError: truth value of an array is ambiguous"
  | .pylist _ => Except.error "ValueError: truth value of an array is ambiguous"
  | v => Except.ok (pyNotNa v)

/-- Python `bool(x)`, partial as in the source: `bool()` on a numpy array
raises for size other than one (size-1 degeneracy excluded from the clean
domain as well); on every other modelled value it is plain truthiness. -/
def pyBoolE : Val → Except String Bool
  | .arr _ => Except.error "ValueError: truth value of an array is ambiguous"
  | .pylist _ => Except.error "ValueError: truth value of an array is ambiguous"
  | v => Except.ok (pytruthy v)

/-- `row.get(key, default) if pd.notna(row.get(key)) else default`, with the
`pd.notna` raise path kept. -/
def notNaGetE (fields : List (String × Val)) (key : String) (default : Val) :
    Except String Val :=
  match pyNotNaE (dictGetD fields key Val.null) with
  | Except.ok b => Except.ok (if b then dictGetD fields key default else default)
  | Except.error e => Except.error e

/-- `int(row.get('vote_count', 0)) if pd.notna(row.get('vote_count')) else 0`
(`export_relational_fast.py` line 351), raise paths kept. -/
def fastVoteCountE (fields : List (String × Val)) : Except String Int :=
  match pyNotNaE (dictGetD fields "vote_count" Val.null) with
  | Except.ok true => pyIntE (dictGetD fields "vote_count" (Val.int 0))
  | Except.ok false => Except.ok 0
  | Except.error e => Except.error e

/-- The value is not an array/list — the shapes on which `pd.notna(x)` in an
`if`, `bool(x)` and `int(x)` raise in the source. -/
def notArrLike : Val → Bool
  | .arr _ => false
  | .pylist _ => false
  | _ => true

/-- Whether an `Except` computation succeeded. -/
def exceptOk {α : Type} : Except String α → Bool
  | .ok _ => true
  | .error _ => false

/-- A record on which the fast script's investor loop performs every
coercion without raising: no array/list where `pd.notna` or `bool()` is
applied, and a missing, null or `int()`-coercible `vote_count`. -/
def fastRecOkB (fields : List (String × Val)) : Bool :=
  notArrLike (dictGetD fields "person" Val.null) &&
  notArrLike (dictGetD fields "firm" Val.null) &&
  notArrLike (dictGetD fields "location" Val.null) &&
  notArrLike (dictGetD fields "vote_count" Val.null) &&
  (if pyNotNa (dictGetD fields "vote_count" Val.null) then
    exceptOk (pyIntE (dictGetD fields "vote_count" (Val.int 0)))
  else true) &&
  notArrLike (dictGetD fields "claimed" (Val.bool false)) &&
  notArrLike (dictGetD fields "can_edit" (Val.bool false)) &&
  notArrLike (dictGetD fields "include_in_list" (Val.bool false)) &&
  notArrLike (dictGetD fields "in_founder_investor_list" (Val.bool false)) &&
  notArrLike (dictGetD fields "in_diverse_investor_list" (Val.bool false)) &&
  notArrLike (dictGetD fields "in_female_investor_list" (Val.bool false)) &&
  notArrLike (dictGetD fields "in_invests_in_diverse_founders_investor_list" (Val.bool false)) &&
  notArrLike (dictGetD fields "in_invests_in_female_founders_investor_list" (Val.bool false)) &&
  notArrLike (dictGetD fields "has_profile_vote" (Val.bool false))

/-- One Investor row of the fast script's second loop (lines 313-364):
`idx` is the 0-based record ordinal, `i` the SERIAL id the append assigns.
This is the **clean-path** value: the faithful version with the source's
raise paths is `fastInvestorRowE`, which returns exactly this row whenever
no coercion raises (`fastInvestorRowE_ok`). -/
def fastInvestorRow (pm fm lm : List (Val × Nat)) (idx : Nat) (i : Nat)
    (fields : List (String × Val)) : FastInvestorRow :=
  let person := notNaGet fields "person" (Val.dict [])
  let firm := notNaGet fields "firm" (Val.dict [])
  let location := notNaGet fields "location" (Val.dict [])
  { id := i
    person_id :=
      if person.isDict && pytruthy person then
        lookupV pm (safe_get person "slug" (Val.str ("person_" ++ toString idx)))
      else Option.none
    firm_id :=
      if firm.isDict && pytruthy firm then
        lookupV fm (safe_get firm "slug" (Val.str ("firm_" ++ toString idx)))
      else Option.none
    location_id :=
      if location.isDict && pytruthy location then
        lookupV lm (safe_get location "display_name" Val.null)
      else Option.none
    position := dictGetD fields "position" Val.null
    headline := dictGetD fields "headline" Val.null
    previous_position := dictGetD fields "previous_position" Val.null
    previous_firm := dictGetD fields "previous_firm" Val.null
    min_investment := dictGetD fields "min_investment" Val.null
    max_investment := dictGetD fields "max_investment" Val.null
    target_investment := dictGetD fields "target_investment" Val.null
    areas_of_interest_freeform := dictGetD fields "areas_of_interest_freeform" Val.null
    no_current_interest_freeform := dictGetD fields "no_current_interest_freeform" Val.null
    vote_count :=
      if pyNotNa (dictGetD fields "vote_count" Val.null) then
        pyIntCoerce (dictGetD fields "vote_count" (Val.int 0))
      else 0
    leads_rounds := dictGetD fields "leads_rounds" Val.null
    claimed := pytruthy (dictGetD fields "claimed" (Val.bool false))
    can_edit := pytruthy (dictGetD fields "can_edit" (Val.bool false))
    include_in_list := pytruthy (dictGetD fields "include_in_list" (Val.bool false))
    in_founder_investor_list :=
      pytruthy (dictGetD fields "in_founder_investor_list" (Val.bool false))
    in_diverse_investor_list :=
      pytruthy (dictGetD fields "in_diverse_investor_list" (Val.bool false))
    in_female_investor_list :=
      pytruthy (dictGetD fields "in_female_investor_list" (Val.bool false))
    in_invests_in_diverse_founders_investor_list :=
      pytruthy (dictGetD fields "in_invests_in_diverse_founders_investor_list" (Val.bool false))
    in_invests_in_female_founders_investor_list :=
      pytruthy (dictGetD fields "in_invests_in_female_founders_investor_list" (Val.bool false))
    has_profile_vote := pytruthy (dictGetD fields "has_profile_vote" (Val.bool false)) }

/-- The fast script's investor loop: one row per record, in order, with the
SERIAL id `idx + 1` on a fresh table. -/
def fastInvestors (pm fm lm : List (Val × Nat)) :
    List (List (String × Val)) → Nat → List FastInvestorRow
  | [], _ => []
  | fields :: rest, idx =>
      fastInvestorRow pm fm lm idx (idx + 1) fields ::
        fastInvestors pm fm lm rest (idx + 1)

/-- One investor-loop iteration with the source's raise paths kept, in
evaluation order: the three `pd.notna` reads (lines 318-320), then the dict
literal's values top to bottom — `vote_count`'s `pd.notna`/`int()` and the
nine `bool()` casts.  Any raise propagates: the loop has no handler. -/
def fastInvestorRowE (pm fm lm : List (Val × Nat)) (idx : Nat) (i : Nat)
    (fields : List (String × Val)) : Except String FastInvestorRow :=
  match notNaGetE fields "person" (Val.dict []) with
  | Except.error e => Except.error e
  | Except.ok person =>
  match notNaGetE fields "firm" (Val.dict []) with
  | Except.error e => Except.error e
  | Except.ok firm =>
  match notNaGetE fields "location" (Val.dict []) with
  | Except.error e => Except.error e
  | Except.ok location =>
  match fastVoteCountE fields with
  | Except.error e => Except.error e
  | Except.ok vote_count =>
  match pyBoolE (dictGetD fields "claimed" (Val.bool false)) with
  | Except.error e => Except.error e
  | Except.ok claimed =>
  match pyBoolE (dictGetD fields "can_edit" (Val.bool false)) with
  | Except.error e => Except.error e
  | Except.ok can_edit =>
  match pyBoolE (dictGetD fields "include_in_list" (Val.bool false)) with
  | Except.error e => Except.error e
  | Except.ok include_in_list =>
  match pyBoolE (dictGetD fields "in_founder_investor_list" (Val.bool false)) with
  | Except.error e => Except.error e
  | Except.ok in_founder =>
  match pyBoolE (dictGetD fields "in_diverse_investor_list" (Val.bool false)) with
  | Except.error e => Except.error e
  | Except.ok in_diverse =>
  match pyBoolE (dictGetD fields "in_female_investor_list" (Val.bool false)) with
  | Except.error e => Except.error e
  | Except.ok in_female =>
  match pyBoolE (dictGetD fields "in_invests_in_diverse_founders_investor_list" (Val.bool false)) with
  | Except.error e => Except.error e
  | Except.ok in_inv_diverse =>
  match pyBoolE (dictGetD fields "in_invests_in_female_founders_investor_list" (Val.bool false)) with
  | Except.error e => Except.error e
  | Except.ok in_inv_female =>
  match pyBoolE (dictGetD fields "has_profile_vote" (Val.bool false)) with
  | Except.error e => Except.error e
  | Except.ok has_vote =>
  Except.ok
    { id := i
      person_id :=
        if person.isDict && pytruthy person then
          lookupV pm (safe_get person "slug" (Val.str ("person_" ++ toString idx)))
        else Option.none
      firm_id :=
        if firm.isDict && pytruthy firm then
          lookupV fm (safe_get firm "slug" (Val.str ("firm_" ++ toString idx)))
        else Option.none
      location_id :=
        if location.isDict && pytruthy location then
          lookupV lm (safe_get location "display_name" Val.null)
        else Option.none
      position := dictGetD fields "position" Val.null
      headline := dictGetD fields "headline" Val.null
      previous_position := dictGetD fields "previous_position" Val.null
      previous_firm := dictGetD fields "previous_firm" Val.null
      min_investment := dictGetD fields "min_investment" Val.null
      max_investment := dictGetD fields "max_investment" Val.null
      target_investment := dictGetD fields "target_investment" Val.null
      areas_of_interest_freeform := dictGetD fields "areas_of_interest_freeform" Val.null
      no_current_interest_freeform := dictGetD fields "no_current_interest_freeform" Val.null
      vote_count := vote_count
      leads_rounds := dictGetD fields "leads_rounds" Val.null
      claimed := claimed
      can_edit := can_edit
      include_in_list := include_in_list
      in_founder_investor_list := in_founder
      in_diverse_investor_list := in_diverse
      in_female_investor_list := in_female
      in_invests_in_diverse_founders_investor_list := in_inv_diverse
      in_invests_in_female_founders_investor_list := in_inv_female
      has_profile_vote := has_vote }

/-- The investor loop with raise paths kept: the first raising record
aborts the run (the source has no try/except here). -/
def fastInvestorsE (pm fm lm : List (Val × Nat)) :
    List (List (String × Val)) → Nat → Except String (List FastInvestorRow)
  | [], _ => Except.ok []
  | fields :: rest, idx =>
      match fastInvestorRowE pm fm lm idx (idx + 1) fields with
      | Except.error e => Except.error e
      | Except.ok row =>
          match fastInvestorsE pm fm lm rest (idx + 1) with
          | Except.error e => Except.error e
          | Except.ok rows => Except.ok (row :: rows)

/-- The persons payload collected by the fast script's first loop
(lines 243-260). -/
structure FastPersonData where
  slug : Val
  first_name : Val
  last_name : Val
  name : Val
  linkedin_url : Val
  facebook_url : String
  twitter_url : Val
  crunchbase_url : Val
  angellist_url : Val
  url : Val
  is_me : Val
  first_degree_count : Val
  is_on_target_list : Val

/-- The firms payload (lines 262-269). -/
structure FastFirmData where
  name : Val
  slug : Val
  current_fund_size : Val

/-- The locations payload (lines 271-277). -/
structure FastLocationData where
  display_name : Val
  kind : Val

/-- The person payload of one record, when its person branch fires
(`person = row.get('person', {}) if pd.notna(...) else {}` then
`if isinstance(person, dict) and person:`).  Unlike `process_investor_data`,
this branch is live: it reads the field with `row.get`. -/
def personPayloadF (idx : Nat) (fields : List (String × Val)) : Option FastPersonData :=
  let person := notNaGet fields "person" (Val.dict [])
  if person.isDict && pytruthy person then
    some
      { slug := safe_get person "slug" (Val.str ("person_" ++ toString idx))
        first_name := safe_get person "first_name" Val.null
        last_name := safe_get person "last_name" Val.null
        name := safe_get person "name" Val.null
        linkedin_url := safe_get person "linkedin_url" Val.null
        facebook_url := pyStr (safe_get person "facebook_url" (Val.str ""))
        twitter_url := safe_get person "twitter_url" Val.null
        crunchbase_url := safe_get person "crunchbase_url" Val.null
        angellist_url := safe_get person "angellist_url" Val.null
        url := safe_get person "url" Val.null
        is_me := safe_get person "is_me" (Val.bool false)
        first_degree_count := safe_get person "first_degree_count" Val.null
        is_on_target_list := safe_get person "is_on_target_list" (Val.bool false) }
  else Option.none

/-- The firm payload of one record (lines 262-269). -/
def firmPayloadF (idx : Nat) (fields : List (String × Val)) : Option FastFirmData :=
  let firm := notNaGet fields "firm" (Val.dict [])
  if firm.isDict && pytruthy firm then
    some
      { name := safe_get firm "name" Val.null
        slug := safe_get firm "slug" (Val.str ("firm_" ++ toString idx))
        current_fund_size := safe_get firm "current_fund_size" Val.null }
  else Option.none

/-- The location payload of one record (lines 271-277); note the fast script
has no truthiness guard on `display_name`. -/
def locationPayloadF (fields : List (String × Val)) : Option FastLocationData :=
  let location := notNaGet fields "location" (Val.dict [])
  if location.isDict && pytruthy location then
    some
      { display_name := safe_get location "display_name" Val.null
        kind := safe_get location "kind" (Val.str "location") }
  else Option.none

/-- The Person natural key the fast script resolves for a record, if any:
the same guard and slug expression as `personPayloadF` and the investor
loop's `person_id` lookup. -/
def fastPersonKey (idx : Nat) (fields : List (String × Val)) : Option Val :=
  let person := notNaGet fields "person" (Val.dict [])
  if person.isDict && pytruthy person then
    some (safe_get person "slug" (Val.str ("person_" ++ toString idx)))
  else Option.none

/-- Prepend an optional element. -/
def optCons {α : Type} : Option α → List α → List α
  | some a, l => a :: l
  | Option.none, l => l

/-- The fast script's dimension-collection loop (lines 239-277), clean
path: per record, append the person, firm and location payloads that
fire. -/
def extractDims : List (List (String × Val)) → Nat →
    List FastPersonData × List FastFirmData × List FastLocationData
  | [], _ => ([], [], [])
  | fields :: rest, idx =>
      let r := extractDims rest (idx + 1)
      (optCons (personPayloadF idx fields) r.1,
        optCons (firmPayloadF idx fields) r.2.1,
        optCons (locationPayloadF fields) r.2.2)

/-- The dimension-collection loop with the `pd.notna` raise paths kept
(lines 244, 263, 272): a raising record aborts the run before anything is
inserted. -/
def extractDimsE : List (List (String × Val)) → Nat →
    Except String (List FastPersonData × List FastFirmData × List FastLocationData)
  | [], _ => Except.ok ([], [], [])
  | fields :: rest, idx =>
      match pyNotNaE (dictGetD fields "person" Val.null) with
      | Except.error e => Except.error e
      | Except.ok _ =>
      match pyNotNaE (dictGetD fields "firm" Val.null) with
      | Except.error e => Except.error e
      | Except.ok _ =>
      match pyNotNaE (dictGetD fields "location" Val.null) with
      | Except.error e => Except.error e
      | Except.ok _ =>
      match extractDimsE rest (idx + 1) with
      | Except.error e => Except.error e
      | Except.ok r =>
          Except.ok
            (optCons (personPayloadF idx fields) r.1,
              optCons (firmPayloadF idx fields) r.2.1,
              optCons (locationPayloadF fields) r.2.2)

/-- `drop_duplicates(subset=[key])`: keep the first occurrence of each
natural key (`seen` accumulates keys already kept). -/
def dropDupBy {α : Type} (key : α → Val) : List α → List Val → List α
  | [], _ => []
  | p :: rest, seen =>
      if key p ∈ seen then dropDupBy key rest seen
      else p :: dropDupBy key rest (key p :: seen)

/-- Bulk append into a fresh table: SERIAL ids `start, start+1, ...` in
list order. -/
def assignIds {α : Type} : Nat → List α → List (Nat × α)
  | _, [] => []
  | start, a :: rest => (start, a) :: assignIds (start + 1) rest

/-- The persons table after the fast script's dimension pass:
`drop_duplicates(subset=['slug'])` then bulk append (ids from 1). -/
def fastPersonsTable (records : List (List (String × Val))) :
    List (Nat × FastPersonData) :=
  assignIds 1 (dropDupBy FastPersonData.slug (extractDims records 0).1 [])

/-- The firms table (`drop_duplicates(subset=['slug'])`). -/
def fastFirmsTable (records : List (List (String × Val))) :
    List (Nat × FastFirmData) :=
  assignIds 1 (dropDupBy FastFirmData.slug (extractDims records 0).2.1 [])

/-- The locations table (`drop_duplicates(subset=['display_name'])`). -/
def fastLocationsTable (records : List (List (String × Val))) :
    List (Nat × FastLocationData) :=
  assignIds 1 (dropDupBy FastLocationData.display_name (extractDims records 0).2.2 [])

/-- `person_map = {slug: id for (id, slug) in SELECT id, slug FROM persons}`. -/
def fastPersonMap (records : List (List (String × Val))) : List (Val × Nat) :=
  (fastPersonsTable records).map (fun r => (r.2.slug, r.1))

/-- `firm_map`, read back the same way. -/
def fastFirmMap (records : List (List (String × Val))) : List (Val × Nat) :=
  (fastFirmsTable records).map (fun r => (r.2.slug, r.1))

/-- `location_map`, read back the same way. -/
def fastLocationMap (records : List (List (String × Val))) : List (Val × Nat) :=
  (fastLocationsTable records).map (fun r => (r.2.display_name, r.1))

/-- The investors table of the fast pipeline, clean path: the second loop
run with the three maps of the dimension pass. -/
def fastInvestorsTable (records : List (List (String × Val))) : List FastInvestorRow :=
  fastInvestors (fastPersonMap records) (fastFirmMap records) (fastLocationMap records)
    records 0

/-! ## Auxiliary predicates and concrete inputs used by the claims -/
/-- The record's nested `person` is absent, null, or not a mapping. -/
def noPersonShapeB (fields : List (String × Val)) : Bool :=
  match lookupField fields "person" with
  | Option.none => true
  | some v => v == Val.null || !v.isDict

/-- The record's `areas_of_interest` is absent, null, or an empty array. -/
def emptyAreasShapeB (fields : List (String × Val)) : Bool :=
  match lookupField fields "areas_of_interest" with
  | Option.none => true
  | some v => v == Val.null || v == Val.arr []

/-- Company payload of the `complete_population.py` post-pass dedup
(lines 248-255). -/
structure CompanyPayloadC where
  name : Val
  display_name : Val
  total_employee_count : Val

/-- `unique_companies[name] = {...}`: Python dict upsert — an existing key
keeps its position and gets the new payload, a new key is appended. -/
def upsertC (acc : List CompanyPayloadC) (p : CompanyPayloadC) : List CompanyPayloadC :=
  if acc.any (fun q => q.name == p.name) then
    acc.map (fun q => if q.name == p.name then p else q)
  else acc ++ [p]

/-- The `unique_companies` dedup of `complete_population.py` (lines 246-255):
one payload per truthy company name, last payload wins. -/
def uniqueCompaniesC (all_positions : List PosRowC) : List CompanyPayloadC :=
  all_positions.foldl (fun acc pos =>
    if pytruthy pos.company_name then
      upsertC acc ⟨pos.company_name, pos.company_display_name, pos.company_employee_count⟩
    else acc) []

/-- A record with one investment edge carrying a company name. -/
def c5recF : List (String × Val) :=
  [("investments_on_record", Val.dict [("edges",
      Val.arr [Val.dict [("node",
        Val.dict [("company_display_name", Val.str "Acme")])]])])]

/-- A record with one investment edge whose node lacks a company name. -/
def c5recC : List (String × Val) :=
  [("investments_on_record", Val.dict [("edges",
      Val.arr [Val.dict [("node", Val.dict [("total_raised", Val.arr [Val.int 5])])]])])]

/-- A record with an investment edge whose node has a company name and no
`total_raised` (so the payload defaults to the empty list). -/
def c10rec : List (String × Val) :=
  [("investments_on_record", Val.dict [("edges",
      Val.arr [Val.dict [("node",
        Val.dict [("company_display_name", Val.str "X")])]])])]

/-- A company registry already holding the key `"Acme"` with id 1. -/
def c6reg : Registry CompanyRow :=
  ⟨[(Val.str "Acme", 1)], [⟨1, Val.str "Acme", Val.str "Acme", Option.none⟩], 2⟩

/-- A record whose truthy, non-numeric `vote_count` makes the fast script's
`int()` raise. -/
def c3badRec : List (String × Val) := [("vote_count", Val.str "abc")]

/-- The spec's §8 scenario record: a person with slug `"a"` and one nested
position at company `"Acme"`. -/
def c6rec : List (String × Val) :=
  [("person", Val.dict [("slug", Val.str "a"), ("name", Val.str "Alice")]),
    ("positions", Val.arr [Val.dict [("title", Val.str "Partner"),
      ("company", Val.dict [("name", Val.str "Acme")])]])]

/-! # Theorems -/

theorem lookupV_append (l₁ l₂ : List (Val × Nat)) (k : Val) :
    lookupV (l₁ ++ l₂) k =
      match lookupV l₁ k with
      | some i => some i
      | Option.none => lookupV l₂ k := by
  induction l₁ with
  | nil => simp [lookupV]
  | cons p rest ih =>
    obtain ⟨k', i⟩ := p
    by_cases h : k' = k <;> simp [lookupV, h, ih]

theorem lookupV_eq_none_iff (l : List (Val × Nat)) (k : Val) :
    lookupV l k = Option.none ↔ k ∉ l.map Prod.fst := by
  induction l with
  | nil => simp [lookupV]
  | cons p rest ih =>
    obtain ⟨k', i⟩ := p
    by_cases h : k' = k
    · subst h; simp [lookupV]
    · have h' : k ≠ k' := fun he => h he.symm
      simp [lookupV, h, ih, h']

theorem lookupV_isSome_mem {l : List (Val × Nat)} {k : Val} {i : Nat}
    (h : lookupV l k = some i) : k ∈ l.map Prod.fst := by
  by_contra hk
  rw [← lookupV_eq_none_iff] at hk
  simp [hk] at h

theorem Registry.getOrCreate_of_lookup {R : Type} (reg : Registry R) (k : Val)
    (mk : Nat → R) (i : Nat) (h : lookupV reg.map k = some i) :
    reg.getOrCreate k mk = (i, reg) := by
  simp [Registry.getOrCreate, h]

theorem Registry.getOrCreate_lookup_self {R : Type} (reg : Registry R) (k : Val)
    (mk : Nat → R) :
    lookupV (reg.getOrCreate k mk).2.map k = some (reg.getOrCreate k mk).1 := by
  unfold Registry.getOrCreate
  cases h : lookupV reg.map k with
  | some i => simp [h]
  | none => simp [h, lookupV_append, lookupV]

theorem Registry.getOrCreate_stable {R : Type} (reg : Registry R) (k k' : Val)
    (mk : Nat → R) (i : Nat) (h : lookupV reg.map k' = some i) :
    lookupV (reg.getOrCreate k mk).2.map k' = some i := by
  unfold Registry.getOrCreate
  cases hk : lookupV reg.map k with
  | some j => simpa [hk] using h
  | none => simp [hk, lookupV_append, h]

theorem Registry.getOrCreate_inv {R : Type} {keyOf : R → Val} {idOf : R → Nat}
    {reg : Registry R} (hinv : RegInv keyOf idOf reg) (k : Val) (mk : Nat → R)
    (hmk : keyOf (mk reg.nextId) = k ∧ idOf (mk reg.nextId) = reg.nextId) :
    RegInv keyOf idOf (reg.getOrCreate k mk).2 := by
  unfold Registry.getOrCreate
  cases h : lookupV reg.map k with
  | some i => simpa using hinv
  | none =>
    obtain ⟨hrows, hnodup⟩ := hinv
    constructor
    · simp [hrows, hmk.1, hmk.2]
    · have hk : k ∉ reg.map.map Prod.fst := (lookupV_eq_none_iff _ _).1 h
      simp only [List.map_append, List.map_cons, List.map_nil]
      rw [List.nodup_append]
      refine ⟨hnodup, List.nodup_singleton _, ?_⟩
      intro a ha hb
      simp only [List.mem_singleton] at hb
      subst hb
      exact hk ha

/-- Under the registry invariant, at most one inserted row carries any given
natural key. -/
theorem RegInv.rows_key_count {R : Type} {keyOf : R → Val} {idOf : R → Nat}
    {reg : Registry R} (hinv : RegInv keyOf idOf reg) (s : Val) :
    (reg.rows.filter (fun r => keyOf r == s)).length ≤ 1 := by
  obtain ⟨hrows, hnodup⟩ := hinv
  have hkeys : reg.rows.map keyOf = reg.map.map Prod.fst := by
    have := congrArg (List.map Prod.fst) hrows
    simpa [List.map_map, Function.comp] using this
  have hcount : (reg.rows.filter (fun r => keyOf r == s)).length
      = (reg.rows.map keyOf).count s := by
    rw [← List.countP_eq_length_filter, List.count, List.countP_map]
    rfl
  rw [hcount, hkeys]
  exact List.nodup_iff_count_le_one.1 hnodup s

/-- Under the registry invariant, a key that resolves has exactly one row. -/
theorem RegInv.rows_key_count_eq_one {R : Type} {keyOf : R → Val} {idOf : R → Nat}
    {reg : Registry R} (hinv : RegInv keyOf idOf reg) (s : Val) (i : Nat)
    (h : lookupV reg.map s = some i) :
    (reg.rows.filter (fun r => keyOf r == s)).length = 1 := by
  obtain ⟨hrows, hnodup⟩ := hinv
  have hkeys : reg.rows.map keyOf = reg.map.map Prod.fst := by
    have := congrArg (List.map Prod.fst) hrows
    simpa [List.map_map, Function.comp] using this
  have hcount : (reg.rows.filter (fun r => keyOf r == s)).length
      = (reg.rows.map keyOf).count s := by
    rw [← List.countP_eq_length_filter, List.count, List.countP_map]
    rfl
  have hmem : s ∈ reg.map.map Prod.fst := lookupV_isSome_mem h
  have hle := List.nodup_iff_count_le_one.1 hnodup s
  have hge : 1 ≤ (reg.map.map Prod.fst).count s := List.count_pos_iff.2 hmem
  rw [hcount, hkeys]
  omega


/-! ## C8 — field-level shape safety of `safe_get` -/
/-- C8: `safe_get` applied to any non-dict object returns the supplied
default for every key, and on a dict it is plain `dict.get`: a nested read
whose containing value is absent, null, or not a mapping resolves to the
field's default and never raises (the embedding is total). -/
theorem c8_safe_get_default :
    (∀ (obj : Val) (key : String) (deflt : Val),
      obj.isDict = false → safe_get obj key deflt = deflt) ∧
    (∀ (fs : List (String × Val)) (key : String) (deflt : Val),
      safe_get (Val.dict fs) key deflt = dictGetD fs key deflt) := by
  constructor
  · intro obj key deflt h
    cases obj <;> first
      | rfl
      | simp [Val.isDict] at h
  · intro fs key deflt
    rfl

/-- Witness for C8: `safe_get` on an integer returns the default. -/
theorem c8_safe_get_default_witness :
    (Val.int 3).isDict = false ∧ safe_get (Val.int 3) "person" Val.null = Val.null :=
  ⟨rfl, c8_safe_get_default.1 (Val.int 3) "person" Val.null rfl⟩

/-! ## C9 — falsy handling of `safe_int` -/
/-- C9: `safe_int` maps every falsy input — in particular `0`, `""` and
`False` — to the default (not to 0); any non-default result comes from a
truthy input whose text parses as a number, yielding that integer; and the
function is total (the source's bare `except` turns every failure into the
default, e.g. `True`, whose text does not parse). -/
theorem c9_safe_int_falsy :
    (∀ (v : Val) (d : Option Int), pytruthy v = false → safe_int v d = d) ∧
    (∀ (d : Option Int),
      safe_int (Val.int 0) d = d ∧ safe_int (Val.str "") d = d ∧
        safe_int (Val.bool false) d = d) ∧
    (∀ (v : Val) (d : Option Int),
      safe_int v d = d ∨
        (pytruthy v = true ∧ safe_int v d = pyParseNumber (pyStr v) ∧
          (pyParseNumber (pyStr v)).isSome)) ∧
    (safe_int (Val.int 42) Option.none = some 42 ∧
      safe_int (Val.str "17") (some 0) = some 17 ∧
      safe_int (Val.bool true) Option.none = Option.none) := by
  refine ⟨?_, ?_, ?_, by decide⟩
  · intro v d h
    simp [safe_int, h]
  · intro d
    refine ⟨?_, ?_, ?_⟩ <;> simp [safe_int, pytruthy]
  · intro v d
    by_cases h : (pytruthy v && pyStrip (pyStr v) != "" && pyStr v != "nan") = true
    · cases hp : pyParseNumber (pyStr v) with
      | none => left; simp [safe_int, h, hp]
      | some n =>
        right
        simp only [Bool.and_eq_true] at h
        exact ⟨h.1.1, by simp [safe_int, h.1.1, h.1.2, h.2, hp], by simp [hp]⟩
    · left
      simp only [Bool.and_eq_true, not_and] at h
      simp only [safe_int]
      rw [if_neg]
      simpa [Bool.and_eq_true] using h

/-- Witness for C9: the falsy integer 0 yields the default, not 0. -/
theorem c9_safe_int_falsy_witness :
    pytruthy (Val.int 0) = false ∧ safe_int (Val.int 0) (some 7) = some 7 :=
  ⟨by decide, c9_safe_int_falsy.1 (Val.int 0) (some 7) (by decide)⟩

/-! ## C7 — absent/null/empty nested arrays -/
/-- C7: a record whose `areas_of_interest` is absent, null, or an empty
array yields zero AreaOfInterest rows (both scripts share the extraction),
so the three shapes are observationally identical; and the guarded script
processes such a record without error. -/
theorem c7_empty_array_default (idx : Nat) (fields : List (String × Val))
    (h : emptyAreasShapeB fields = true) :
    areasComplete idx fields = [] ∧
    kindDisplayRows "areas_of_interest" idx fields = [] ∧
    (∀ (pm : List (Val × Nat)) (st : FixedState),
      processRecordFixed pm idx (Val.dict fields) st =
        Except.ok (extractFixed pm idx fields st)) := by
  have hrows : kindDisplayRows "areas_of_interest" idx fields = [] := by
    unfold emptyAreasShapeB at h
    unfold kindDisplayRows dictGetD
    cases hl : lookupField fields "areas_of_interest" with
    | none => simp [is_valid_array]
    | some v =>
      rw [hl] at h
      simp only [Bool.or_eq_true, beq_iff_eq] at h
      rcases h with h | h <;> subst h <;> simp [is_valid_array]
  exact ⟨hrows, hrows, fun pm st => rfl⟩

/-- Witness for C7 at a record with a null `areas_of_interest`. -/
theorem c7_empty_array_default_witness :
    emptyAreasShapeB [("areas_of_interest", Val.null)] = true ∧
    areasComplete 0 [("areas_of_interest", Val.null)] = [] :=
  ⟨by decide, (c7_empty_array_default 0 [("areas_of_interest", Val.null)] (by decide)).1⟩

/-! ## C2 — orphan policy for Position/Degree rows -/

theorem personKeyA_eq_none (idx : Nat) (fields : List (String × Val)) :
    personKeyA idx fields = Option.none := by
  simp [personKeyA, personDataOf, safeGetRow, pytruthy]

theorem personIdC_eq_none (pm : List (Val × Nat)) (idx : Nat)
    (fields : List (String × Val)) : personIdC pm idx fields = Option.none := by
  simp [personIdC, personDataOf, safeGetRow, pytruthy]

theorem optTruthy_eq_true {o : Option Nat} (h : optTruthy o = true) :
    ∃ n, o = some n ∧ n ≠ 0 := by
  cases o with
  | none => simp [optTruthy] at h
  | some n => exact ⟨n, rfl, by simpa [optTruthy] using h⟩

/-- C2: a record whose nested `person` is absent, null, or not a mapping
resolves no Person id; it yields zero Position and zero Degree rows in both
fact-pass scripts, and its Investor row is emitted with a null `person_id`.
Conversely, Position/Degree rows are emitted only when the Person resolved
to a (truthy) id. -/
theorem c2_orphan_policy :
    (∀ (fields : List (String × Val)) (pm : List (Val × Nat)) (idx : Nat),
      noPersonShapeB fields = true →
      personIdC pm idx fields = Option.none ∧
      positionsComplete idx pm fields = [] ∧
      degreesComplete idx pm fields = [] ∧
      (∀ reg : Registry CompanyRow,
        positionsStepF fields (personIdC pm idx fields) reg = ([], reg)) ∧
      (∀ sreg : Registry SchoolRow,
        degreesStepF fields (personIdC pm idx fields) sreg = ([], sreg)) ∧
      (∀ st : RelState,
        (processA st idx fields).investors = st.investors ++
          [investorRowA st.nextInvestorId Option.none (firmStepA idx fields st.firms).1
            (locationStepA fields st.locations).1 fields])) ∧
    (∀ (fields : List (String × Val)) (pm : List (Val × Nat)) (idx : Nat),
      positionsComplete idx pm fields ≠ [] ∨ degreesComplete idx pm fields ≠ [] →
      ∃ n, personIdC pm idx fields = some n ∧ n ≠ 0) := by
  constructor
  · intro fields pm idx _h
    have hpid : personIdC pm idx fields = Option.none := personIdC_eq_none pm idx fields
    have hkey : personKeyA idx fields = Option.none := personKeyA_eq_none idx fields
    refine ⟨hpid, ?_, ?_, ?_, ?_, ?_⟩
    · simp [positionsComplete, hpid, optTruthy]
    · simp [degreesComplete, hpid, optTruthy]
    · intro reg; simp [positionsStepF, hpid, optTruthy]
    · intro sreg; simp [degreesStepF, hpid, optTruthy]
    · intro st; simp [processA, personStepA, hkey]
  · intro fields pm idx h
    by_cases ht : optTruthy (personIdC pm idx fields) = true
    · exact optTruthy_eq_true ht
    · exfalso
      have ht' : optTruthy (personIdC pm idx fields) = false :=
        Bool.not_eq_true _ ▸ Bool.eq_false_iff.2 ht
      rcases h with h | h
      · exact h (by simp [positionsComplete, ht'])
      · exact h (by simp [degreesComplete, ht'])

/-- Witness for C2 at a record whose `person` is null. -/
theorem c2_orphan_policy_witness :
    noPersonShapeB [("person", Val.null), ("positions", Val.arr [Val.dict []])] = true ∧
    positionsComplete 0 [] [("person", Val.null), ("positions", Val.arr [Val.dict []])] = [] ∧
    degreesComplete 0 [] [("person", Val.null), ("positions", Val.arr [Val.dict []])] = [] :=
  ⟨by decide,
    (c2_orphan_policy.1 [("person", Val.null), ("positions", Val.arr [Val.dict []])] [] 0
      (by decide)).2.1,
    (c2_orphan_policy.1 [("person", Val.null), ("positions", Val.arr [Val.dict []])] [] 0
      (by decide)).2.2.1⟩

/-! ## Fast-pipeline machinery: coercion raise paths and the clean domain -/

theorem pyNotNaE_of_notArrLike {v : Val} (h : notArrLike v = true) :
    pyNotNaE v = Except.ok (pyNotNa v) := by
  cases v <;> first | rfl | simp [notArrLike] at h

theorem pyBoolE_of_notArrLike {v : Val} (h : notArrLike v = true) :
    pyBoolE v = Except.ok (pytruthy v) := by
  cases v <;> first | rfl | simp [notArrLike] at h

theorem pyIntE_of_ok {v : Val} (h : exceptOk (pyIntE v) = true) :
    pyIntE v = Except.ok (pyIntCoerce v) := by
  cases v with
  | int n => rfl
  | bool b => rfl
  | str s =>
    cases hp : pyParseIntLiteral s with
    | none => simp [pyIntE, hp, exceptOk] at h
    | some n => simp [pyIntE, pyIntCoerce, pyStr, hp]
  | null => simp [pyIntE, exceptOk] at h
  | dict fs => simp [pyIntE, exceptOk] at h
  | arr es => simp [pyIntE, exceptOk] at h
  | pylist es => simp [pyIntE, exceptOk] at h

theorem notNaGetE_of_notArrLike {fields : List (String × Val)} {key : String}
    (d : Val) (h : notArrLike (dictGetD fields key Val.null) = true) :
    notNaGetE fields key d = Except.ok (notNaGet fields key d) := by
  unfold notNaGetE notNaGet
  rw [pyNotNaE_of_notArrLike h]

theorem fastVoteCountE_ok {fields : List (String × Val)}
    (h1 : notArrLike (dictGetD fields "vote_count" Val.null) = true)
    (h2 : (if pyNotNa (dictGetD fields "vote_count" Val.null) then
        exceptOk (pyIntE (dictGetD fields "vote_count" (Val.int 0)))
      else true) = true) :
    fastVoteCountE fields = Except.ok
      (if pyNotNa (dictGetD fields "vote_count" Val.null) then
        pyIntCoerce (dictGetD fields "vote_count" (Val.int 0))
      else 0) := by
  unfold fastVoteCountE
  rw [pyNotNaE_of_notArrLike h1]
  by_cases hb : pyNotNa (dictGetD fields "vote_count" Val.null) = true
  · simp only [hb, if_true] at h2 ⊢
    exact pyIntE_of_ok h2
  · have hb' : pyNotNa (dictGetD fields "vote_count" Val.null) = false := by
      simpa using hb
    simp [hb']

theorem fastInvestorRowE_ok {fields : List (String × Val)}
    (h : fastRecOkB fields = true) (pm fm lm : List (Val × Nat)) (idx i : Nat) :
    fastInvestorRowE pm fm lm idx i fields =
      Except.ok (fastInvestorRow pm fm lm idx i fields) := by
  simp only [fastRecOkB, Bool.and_eq_true] at h
  obtain ⟨⟨⟨⟨⟨⟨⟨⟨⟨⟨⟨⟨⟨hp, hf⟩, hl⟩, hva⟩, hvi⟩, hc1⟩, hc2⟩, hc3⟩, hc4⟩, hc5⟩,
    hc6⟩, hc7⟩, hc8⟩, hc9⟩ := h
  unfold fastInvestorRowE
  rw [notNaGetE_of_notArrLike (Val.dict []) hp,
    notNaGetE_of_notArrLike (Val.dict []) hf,
    notNaGetE_of_notArrLike (Val.dict []) hl,
    fastVoteCountE_ok hva hvi,
    pyBoolE_of_notArrLike hc1, pyBoolE_of_notArrLike hc2, pyBoolE_of_notArrLike hc3,
    pyBoolE_of_notArrLike hc4, pyBoolE_of_notArrLike hc5, pyBoolE_of_notArrLike hc6,
    pyBoolE_of_notArrLike hc7, pyBoolE_of_notArrLike hc8, pyBoolE_of_notArrLike hc9]
  rfl

theorem fastInvestorsE_ok (pm fm lm : List (Val × Nat))
    (rs : List (List (String × Val))) :
    ∀ idx : Nat, (∀ (i : Nat) fields, rs[i]? = some fields → fastRecOkB fields = true) →
      fastInvestorsE pm fm lm rs idx = Except.ok (fastInvestors pm fm lm rs idx) := by
  induction rs with
  | nil => intro idx _; rfl
  | cons f rest ih =>
    intro idx hclean
    have hf : fastRecOkB f = true := hclean 0 f (by simp)
    have hrest : ∀ (i : Nat) fields, rest[i]? = some fields → fastRecOkB fields = true := by
      intro i fields hi
      exact hclean (i + 1) fields (by simpa using hi)
    simp only [fastInvestorsE]
    rw [fastInvestorRowE_ok hf pm fm lm idx (idx + 1), ih (idx + 1) hrest]
    rfl

theorem extractDimsE_ok (rs : List (List (String × Val))) :
    ∀ idx : Nat, (∀ (i : Nat) fields, rs[i]? = some fields → fastRecOkB fields = true) →
      extractDimsE rs idx = Except.ok (extractDims rs idx) := by
  induction rs with
  | nil => intro idx _; rfl
  | cons f rest ih =>
    intro idx hclean
    have hf : fastRecOkB f = true := hclean 0 f (by simp)
    simp only [fastRecOkB, Bool.and_eq_true] at hf
    obtain ⟨⟨⟨⟨⟨⟨⟨⟨⟨⟨⟨⟨⟨hp, hff⟩, hl⟩, _⟩, _⟩, _⟩, _⟩, _⟩, _⟩, _⟩, _⟩, _⟩, _⟩, _⟩ := hf
    have hrest : ∀ (i : Nat) fields, rest[i]? = some fields → fastRecOkB fields = true := by
      intro i fields hi
      exact hclean (i + 1) fields (by simpa using hi)
    simp only [extractDimsE]
    rw [pyNotNaE_of_notArrLike hp, pyNotNaE_of_notArrLike hff, pyNotNaE_of_notArrLike hl,
      ih (idx + 1) hrest]
    rfl

/-! ## Fast-pipeline machinery: dedup, id assignment and lookups -/

theorem mem_optCons {α : Type} {a : α} {l : List α} (o : Option α) (h : a ∈ l) :
    a ∈ optCons o l := by
  cases o with
  | none => exact h
  | some b => exact List.mem_cons_of_mem _ h

theorem dropDupBy_nodup {α : Type} (key : α → Val) (l : List α) :
    ∀ seen : List Val, ((dropDupBy key l seen).map key).Nodup ∧
      ∀ a ∈ (dropDupBy key l seen).map key, a ∉ seen := by
  induction l with
  | nil =>
    intro seen
    exact ⟨List.nodup_nil, by intro a ha; simp [dropDupBy] at ha⟩
  | cons p rest ih =>
    intro seen
    by_cases hmem : key p ∈ seen
    · simp only [dropDupBy, if_pos hmem]
      exact ih seen
    · simp only [dropDupBy, if_neg hmem]
      obtain ⟨hnd, hnin⟩ := ih (key p :: seen)
      constructor
      · simp only [List.map_cons, List.nodup_cons]
        refine ⟨?_, hnd⟩
        intro hin
        exact (hnin _ hin) (List.mem_cons_self _ _)
      · intro a ha
        simp only [List.map_cons, List.mem_cons] at ha
        rcases ha with rfl | ha
        · exact hmem
        · intro hseen
          exact (hnin a ha) (List.mem_cons_of_mem _ hseen)

theorem dropDupBy_key_mem {α : Type} (key : α → Val) (l : List α) :
    ∀ (seen : List Val) (p : α), p ∈ l →
      key p ∈ seen ∨ key p ∈ (dropDupBy key l seen).map key := by
  induction l with
  | nil => intro seen p hp; cases hp
  | cons q rest ih =>
    intro seen p hp
    by_cases hmem : key q ∈ seen
    · simp only [dropDupBy, if_pos hmem]
      rcases List.mem_cons.1 hp with rfl | hp
      · exact Or.inl hmem
      · exact ih seen p hp
    · simp only [dropDupBy, if_neg hmem, List.map_cons]
      rcases List.mem_cons.1 hp with rfl | hp
      · exact Or.inr (List.mem_cons_self _ _)
      · rcases ih (key q :: seen) p hp with h | h
        · rcases List.mem_cons.1 h with he | hs
          · exact Or.inr (by rw [he]; exact List.mem_cons_self _ _)
          · exact Or.inl hs
        · exact Or.inr (List.mem_cons_of_mem _ h)

theorem assignIds_snd {α : Type} (start : Nat) (l : List α) :
    (assignIds start l).map Prod.snd = l := by
  induction l generalizing start with
  | nil => rfl
  | cons a rest ih => simp [assignIds, ih]

theorem assignIds_keys {α : Type} (key : α → Val) (start : Nat) (l : List α) :
    (assignIds start l).map (fun r => key r.2) = l.map key := by
  rw [show (fun r : Nat × α => key r.2) = (key ∘ Prod.snd) from rfl, ← List.map_map,
    assignIds_snd]

theorem assignIds_lookup {α : Type} (key : α → Val) (start : Nat) (l : List α)
    (s : Val) (hs : s ∈ l.map key) :
    ∃ id, lookupV ((assignIds start l).map (fun r => (key r.2, r.1))) s = some id := by
  induction l generalizing start with
  | nil => simp at hs
  | cons a rest ih =>
    by_cases he : key a = s
    · exact ⟨start, by simp [assignIds, lookupV, he]⟩
    · have hs' : s ∈ rest.map key := by
        simp only [List.map_cons, List.mem_cons] at hs
        rcases hs with h | h
        · exact absurd h.symm he
        · exact h
      obtain ⟨id, hid⟩ := ih (start + 1) hs'
      exact ⟨id, by simp [assignIds, lookupV, he, hid]⟩

theorem filter_key_length_le_one {α : Type} (key : α → Val) (l : List α)
    (h : (l.map key).Nodup) (s : Val) :
    (l.filter (fun a => key a == s)).length ≤ 1 := by
  have hcount : (l.filter (fun a => key a == s)).length = (l.map key).count s := by
    rw [← List.countP_eq_length_filter, List.count, List.countP_map]
    rfl
  rw [hcount]
  exact List.nodup_iff_count_le_one.1 h s

theorem filter_key_length_eq_one {α : Type} (key : α → Val) (l : List α)
    (h : (l.map key).Nodup) (s : Val) (hs : s ∈ l.map key) :
    (l.filter (fun a => key a == s)).length = 1 := by
  have hcount : (l.filter (fun a => key a == s)).length = (l.map key).count s := by
    rw [← List.countP_eq_length_filter, List.count, List.countP_map]
    rfl
  have hle := List.nodup_iff_count_le_one.1 h s
  have hge : 1 ≤ (l.map key).count s := List.count_pos_iff.2 hs
  rw [hcount]
  omega

theorem fastPersonKey_payload {idx : Nat} {fields : List (String × Val)} {s : Val}
    (h : fastPersonKey idx fields = some s) :
    ∃ p, personPayloadF idx fields = some p ∧ p.slug = s := by
  simp only [fastPersonKey] at h
  simp only [personPayloadF]
  by_cases hg : ((notNaGet fields "person" (Val.dict [])).isDict &&
      pytruthy (notNaGet fields "person" (Val.dict []))) = true
  · rw [if_pos hg] at h ⊢
    exact ⟨_, rfl, Option.some.inj h⟩
  · rw [if_neg hg] at h
    exact absurd h (by simp)

theorem fastInvestorRow_person_id (pm fm lm : List (Val × Nat)) (idx i : Nat)
    (fields : List (String × Val)) (s : Val)
    (h : fastPersonKey idx fields = some s) :
    (fastInvestorRow pm fm lm idx i fields).person_id = lookupV pm s := by
  simp only [fastPersonKey] at h
  have hrow : (fastInvestorRow pm fm lm idx i fields).person_id =
      (if (notNaGet fields "person" (Val.dict [])).isDict &&
          pytruthy (notNaGet fields "person" (Val.dict [])) then
        lookupV pm (safe_get (notNaGet fields "person" (Val.dict [])) "slug"
          (Val.str ("person_" ++ toString idx)))
      else Option.none) := rfl
  rw [hrow]
  by_cases hg : ((notNaGet fields "person" (Val.dict [])).isDict &&
      pytruthy (notNaGet fields "person" (Val.dict []))) = true
  · rw [if_pos hg] at h ⊢
    rw [Option.some.inj h]
  · rw [if_neg hg] at h
    exact absurd h (by simp)

theorem extractDims_person_mem (rs : List (List (String × Val))) :
    ∀ (idx i : Nat) (fields : List (String × Val)) (p : FastPersonData),
      rs[i]? = some fields → personPayloadF (idx + i) fields = some p →
      p ∈ (extractDims rs idx).1 := by
  induction rs with
  | nil => intro idx i fields p hget _; simp at hget
  | cons f rest ih =>
    intro idx i fields p hget hpay
    cases i with
    | zero =>
      have hfeq : f = fields := by simpa using hget
      subst hfeq
      rw [Nat.add_zero] at hpay
      simp only [extractDims, hpay, optCons]
      exact List.mem_cons_self _ _
    | succ j =>
      have hget' : rest[j]? = some fields := by simpa using hget
      have hpay' : personPayloadF ((idx + 1) + j) fields = some p := by
        have harith : idx + 1 + j = idx + (j + 1) := by omega
        rw [harith]
        exact hpay
      have hmem := ih (idx + 1) j fields p hget' hpay'
      simp only [extractDims]
      exact mem_optCons _ hmem

/-! ## C3 — one Investor row per record, id = 1-based ordinal -/
theorem fastInvestors_length (pm fm lm : List (Val × Nat))
    (rs : List (List (String × Val))) :
    ∀ idx : Nat, (fastInvestors pm fm lm rs idx).length = rs.length := by
  induction rs with
  | nil => intro idx; rfl
  | cons f rest ih => intro idx; simp [fastInvestors, ih (idx + 1)]

theorem fastInvestors_getElem? (pm fm lm : List (Val × Nat))
    (rs : List (List (String × Val))) :
    ∀ (idx i : Nat),
      (fastInvestors pm fm lm rs idx)[i]? =
        (rs[i]?).map (fun fields =>
          fastInvestorRow pm fm lm (idx + i) (idx + i + 1) fields) := by
  induction rs with
  | nil => intro idx i; simp [fastInvestors]
  | cons f rest ih =>
    intro idx i
    cases i with
    | zero => simp [fastInvestors]
    | succ j =>
      rw [fastInvestors, List.getElem?_cons_succ, List.getElem?_cons_succ,
        ih (idx + 1) j]
      have harith : idx + 1 + j = idx + (j + 1) := by omega
      rw [harith]

theorem kindDisplayRows_investor_id {field : String} {idx : Nat}
    {fields : List (String × Val)} {row : KindDisplayRow}
    (h : row ∈ kindDisplayRows field idx fields) : row.investor_id = idx + 1 := by
  simp only [kindDisplayRows] at h
  split at h
  · obtain ⟨a, _, ha⟩ := List.mem_filterMap.1 h
    split at ha
    · cases ha; rfl
    · cases ha
  · cases h

theorem investmentsComplete_investor_id {idx : Nat} {fields : List (String × Val)}
    {row : InvRow} (h : row ∈ investmentsComplete idx fields) :
    row.investor_id = idx + 1 := by
  simp only [investmentsComplete] at h
  split at h
  · split at h
    · obtain ⟨a, _, ha⟩ := List.mem_filterMap.1 h
      split at ha
      · split at ha
        · cases ha; rfl
        · cases ha
      · cases ha
    · cases h
  · cases h

/-! ## C1 — dimension dedup in the fast pipeline; dead branches in the slow one -/

theorem fastPersonsTable_slug_nodup (records : List (List (String × Val))) :
    ((fastPersonsTable records).map (fun r => r.2.slug)).Nodup := by
  unfold fastPersonsTable
  rw [assignIds_keys FastPersonData.slug 1]
  exact (dropDupBy_nodup FastPersonData.slug _ []).1

theorem fastFirmsTable_slug_nodup (records : List (List (String × Val))) :
    ((fastFirmsTable records).map (fun r => r.2.slug)).Nodup := by
  unfold fastFirmsTable
  rw [assignIds_keys FastFirmData.slug 1]
  exact (dropDupBy_nodup FastFirmData.slug _ []).1

theorem fastLocationsTable_display_nodup (records : List (List (String × Val))) :
    ((fastLocationsTable records).map (fun r => r.2.display_name)).Nodup := by
  unfold fastLocationsTable
  rw [assignIds_keys FastLocationData.display_name 1]
  exact (dropDupBy_nodup FastLocationData.display_name _ []).1

/-- C1 (amended): in `extract_and_bulk_insert` (`export_relational_fast.py`)
the dimension pass reads the nested payloads with the live `row.get`,
deduplicates each list on its natural key (`drop_duplicates` on Person slug,
Firm slug, Location display_name) before the bulk insert, and the investor
loop resolves `person_id` through the map read back from the table — so on
coercion-clean records every natural key is unique across the run, a record
that resolves a Person key sees exactly one persons row carrying it, and
that record's Investor row references its surrogate id.  In
`process_investor_data` (`export_relational.py`) the dedup claim is vacuous:
the dimension branches read the record with `safe_get(row, ...)`, and a
pandas Series is not a `dict`, so `safe_get` constantly returns the default,
the branches never fire, no dimension row is ever created and every
Investor `person_id` is NULL (`c1_counterexample`). -/
theorem c1_fast_dedup (records : List (List (String × Val)))
    (hclean : ∀ (i : Nat) (fields : List (String × Val)),
      records[i]? = some fields → fastRecOkB fields = true) :
    extractDimsE records 0 = Except.ok (extractDims records 0) ∧
    fastInvestorsE (fastPersonMap records) (fastFirmMap records)
      (fastLocationMap records) records 0 = Except.ok (fastInvestorsTable records) ∧
    ((fastPersonsTable records).map (fun r => r.2.slug)).Nodup ∧
    ((fastFirmsTable records).map (fun r => r.2.slug)).Nodup ∧
    ((fastLocationsTable records).map (fun r => r.2.display_name)).Nodup ∧
    (∀ (i : Nat) (fields : List (String × Val)) (s : Val),
      records[i]? = some fields → fastPersonKey i fields = some s →
      ∃ id, lookupV (fastPersonMap records) s = some id ∧
        ((fastPersonsTable records).filter (fun r => r.2.slug == s)).length = 1 ∧
        ((fastInvestorsTable records)[i]?).map FastInvestorRow.person_id =
          some (some id)) := by
  refine ⟨extractDimsE_ok records 0 hclean,
    fastInvestorsE_ok _ _ _ records 0 hclean,
    fastPersonsTable_slug_nodup records, fastFirmsTable_slug_nodup records,
    fastLocationsTable_display_nodup records, ?_⟩
  intro i fields s hget hkey
  obtain ⟨p, hpay, hslug⟩ := fastPersonKey_payload hkey
  have hpay0 : personPayloadF (0 + i) fields = some p := by
    rw [Nat.zero_add]
    exact hpay
  have hmem : p ∈ (extractDims records 0).1 :=
    extractDims_person_mem records 0 i fields p hget hpay0
  have hded := dropDupBy_key_mem FastPersonData.slug (extractDims records 0).1 [] p hmem
  rcases hded with hded | hded
  · simp at hded
  rw [hslug] at hded
  obtain ⟨id, hid⟩ := assignIds_lookup FastPersonData.slug 1
    (dropDupBy FastPersonData.slug (extractDims records 0).1 []) s hded
  refine ⟨id, hid, ?_, ?_⟩
  · have hs' : s ∈ (fastPersonsTable records).map (fun r => r.2.slug) := by
      unfold fastPersonsTable
      rw [assignIds_keys FastPersonData.slug 1]
      exact hded
    exact filter_key_length_eq_one (fun r => r.2.slug) (fastPersonsTable records)
      (fastPersonsTable_slug_nodup records) s hs'
  · have hrow : (fastInvestorsTable records)[i]? =
        some (fastInvestorRow (fastPersonMap records) (fastFirmMap records)
          (fastLocationMap records) (0 + i) (0 + i + 1) fields) := by
      unfold fastInvestorsTable
      rw [fastInvestors_getElem? _ _ _ records 0 i, hget]
      rfl
    rw [hrow, Nat.zero_add, Option.map_some']
    rw [fastInvestorRow_person_id _ _ _ i (i + 1) fields s hkey]
    exact congrArg some hid

/-- Witness for C1: two records sharing Person slug `"a"`; the second record
resolves the key to one row and its Investor row references that row's
id. -/
theorem c1_fast_dedup_witness :
    (([c1recA, c1recA] : List (List (String × Val)))[1]? = some c1recA ∧
      fastPersonKey 1 c1recA = some (Val.str "a")) ∧
    (∃ id, lookupV (fastPersonMap [c1recA, c1recA]) (Val.str "a") = some id ∧
      ((fastPersonsTable [c1recA, c1recA]).filter
        (fun r => r.2.slug == Val.str "a")).length = 1 ∧
      ((fastInvestorsTable [c1recA, c1recA])[1]?).map FastInvestorRow.person_id =
        some (some id)) := by
  have hclean : ∀ (i : Nat) (fields : List (String × Val)),
      ([c1recA, c1recA] : List (List (String × Val)))[i]? = some fields →
      fastRecOkB fields = true := by
    intro i fields hget
    match i with
    | 0 =>
      simp only [List.getElem?_cons_zero, Option.some.injEq] at hget
      rw [← hget]
      decide
    | 1 =>
      simp only [List.getElem?_cons_succ, List.getElem?_cons_zero,
        Option.some.injEq] at hget
      rw [← hget]
      decide
    | n + 2 => simp at hget
  refine ⟨⟨rfl, by decide⟩, ?_⟩
  exact (c1_fast_dedup [c1recA, c1recA] hclean).2.2.2.2.2 1 c1recA (Val.str "a")
    rfl (by decide)

/-- C1 counterexample: the same two records through `process_investor_data`
(`export_relational.py`) — `safe_get` on the Series row defaults on every
key, so the run creates zero persons rows and both Investor rows carry a
NULL `person_id`, refuting "exactly one Person row exists after the run,
and all N Investor rows reference its surrogate id" for that cited
source. -/
theorem c1_counterexample :
    (runRelational [c1recA, c1recA]).persons.rows.length = 0 ∧
    (runRelational [c1recA, c1recA]).investors.map InvestorRow.person_id =
      [Option.none, Option.none] := by
  decide

/-- C3 (amended): on records whose fields survive the investor loop's
coercions (`fastRecOkB` — no array/list where `pd.notna` or `bool()` is
applied, no truthy non-numeric `vote_count`), the fast export's investor
loop completes without raising and emits exactly one Investor row per
record, whose SERIAL id is the record's 1-based ordinal `i + 1`; the second
pass (`complete_population.py`) addresses the same record's children by the
same `investor_id = idx + 1`, so the surrogate ids agree across the two
passes as long as the source order is unchanged.  The "always emitted,
regardless" reading is false of the source: the loop has no per-record
handler, so one coercion-raising record aborts the whole run
(`c3_counterexample`). -/
theorem c3_fast_investor_ordinal (pm fm lm : List (Val × Nat))
    (records : List (List (String × Val)))
    (hclean : ∀ (i : Nat) (fields : List (String × Val)),
      records[i]? = some fields → fastRecOkB fields = true) :
    fastInvestorsE pm fm lm records 0 =
      Except.ok (fastInvestors pm fm lm records 0) ∧
    (fastInvestors pm fm lm records 0).length = records.length ∧
    (∀ (i : Nat) (fields : List (String × Val)), records[i]? = some fields →
      ((fastInvestors pm fm lm records 0)[i]?).map FastInvestorRow.id = some (i + 1) ∧
      (∀ row ∈ areasComplete i fields, row.investor_id = i + 1) ∧
      (∀ row ∈ investmentsComplete i fields, row.investor_id = i + 1)) := by
  refine ⟨fastInvestorsE_ok pm fm lm records 0 hclean,
    fastInvestors_length pm fm lm records 0, ?_⟩
  intro i fields hget
  refine ⟨?_, ?_, fun row hr => investmentsComplete_investor_id hr⟩
  · rw [fastInvestors_getElem? pm fm lm records 0 i, hget]
    rw [Nat.zero_add i]
    rfl
  · intro row hr
    unfold areasComplete at hr
    exact kindDisplayRows_investor_id hr

/-- Witness for C3 at a concrete clean one-record input. -/
theorem c3_fast_investor_ordinal_witness :
    fastInvestorsE [] [] [] [[("headline", Val.str "x")]] 0 =
      Except.ok (fastInvestors [] [] [] [[("headline", Val.str "x")]] 0) ∧
    ((fastInvestors [] [] [] [[("headline", Val.str "x")]] 0)[0]?).map
      FastInvestorRow.id = some 1 := by
  have hclean : ∀ (i : Nat) (fields : List (String × Val)),
      ([[("headline", Val.str "x")]] : List (List (String × Val)))[i]? = some fields →
      fastRecOkB fields = true := by
    intro i fields hget
    match i with
    | 0 =>
      simp only [List.getElem?_cons_zero, Option.some.injEq] at hget
      rw [← hget]
      decide
    | n + 1 => simp at hget
  have h := c3_fast_investor_ordinal [] [] [] [[("headline", Val.str "x")]] hclean
  exact ⟨h.1, (h.2.2 0 [("headline", Val.str "x")] rfl).1⟩

/-- C3 counterexample: a record whose `vote_count` is the truthy non-numeric
string `"abc"` makes `int(row.get('vote_count', 0))` raise `ValueError`;
the unguarded loop aborts the run, and the later record gets no row at
all — rows are not emitted "regardless". -/
theorem c3_counterexample :
    fastInvestorsE [] [] [] [c3badRec, [("headline", Val.str "x")]] 0 =
      Except.error "ValueError: invalid literal for int()" := rfl

/-! ## C5 — Investment rows require a company name -/
/-- C5 (for `populate_nested_data_fixed.py`): an Investment row is emitted
only when the unwrapped node's `company_display_name` is truthy (non-empty,
non-null). -/
theorem c5_investment_requires_company_name {idx : Nat}
    {fields : List (String × Val)} {row : InvRow}
    (h : row ∈ investmentsFixed idx fields) :
    pytruthy row.company_display_name = true := by
  simp only [investmentsFixed] at h
  split at h
  · split at h
    · obtain ⟨a, _, ha⟩ := List.mem_filterMap.1 h
      split at ha
      · split at ha
        · split at ha
          · next hname => cases ha; exact hname
          · cases ha
        · cases ha
      · cases ha
    · cases h
  · cases h

/-- Witness for C5 at a concrete record whose node has a company name. -/
theorem c5_investment_requires_company_name_witness :
    ((investmentsFixed 0 c5recF).head?).isSome = true ∧
    (∀ row ∈ investmentsFixed 0 c5recF, pytruthy row.company_display_name = true) :=
  ⟨by decide, fun _ hr => c5_investment_requires_company_name hr⟩

/-- C5 counterexample: `complete_population.py` (a cited source of the
claim) emits an Investment row for an edge whose node lacks
`company_display_name` — the row is produced with a null name instead of
being skipped. -/
theorem c5_counterexample :
    (investmentsComplete 0 c5recC).map (fun r => r.company_display_name) = [Val.null] := by
  decide

/-! ## C10 — `total_raised` serialization -/
/-- C10 (amended): in `process_all_nested_data` an empty or falsy
`total_raised` stores NULL and a truthy payload stores its JSON text with
numpy arrays converted to lists first; in `process_nested_data`
(`populate_nested_data_fixed.py`) the guard is `is not None`, so only a
literal null stores NULL and an absent/empty payload serializes to
`"[]"`. -/
theorem c10_total_raised_serialization :
    (∀ tr0 : Val, pytruthy (pylistify tr0) = false →
      serializeTotalRaisedComplete tr0 = Option.none) ∧
    (∀ tr0 : Val, pytruthy (pylistify tr0) = true →
      serializeTotalRaisedComplete tr0 = some (jsonDumps (pylistify tr0))) ∧
    (serializeTotalRaisedComplete (Val.arr []) = Option.none ∧
      serializeTotalRaisedComplete (Val.pylist []) = Option.none) ∧
    (serializeTotalRaisedFixed Val.null = Option.none ∧
      serializeTotalRaisedFixed (Val.pylist []) = some "[]" ∧
      serializeTotalRaisedFixed (Val.arr []) = some "[]") := by
  refine ⟨?_, ?_, by decide, by decide⟩
  · intro tr0 h
    simp [serializeTotalRaisedComplete, h]
  · intro tr0 h
    simp [serializeTotalRaisedComplete, h]

/-- Witness for C10: a falsy payload (integer 0) stores NULL. -/
theorem c10_total_raised_serialization_witness :
    pytruthy (pylistify (Val.int 0)) = false ∧
    serializeTotalRaisedComplete (Val.int 0) = Option.none :=
  ⟨by decide, c10_total_raised_serialization.1 (Val.int 0) (by decide)⟩

/-- C10 counterexample: `populate_nested_data_fixed.py` (a cited source of
the claim) stores the canonical empty-sequence encoding `"[]"` — not NULL —
for an empty `total_raised` payload. -/
theorem c10_counterexample :
    (investmentsFixed 0 c10rec).map (fun r => r.total_raised_json) = [some "[]"] := by
  decide

/-! ## C4 — per-record error isolation -/
theorem runFixedAux_append (pm : List (Val × Nat)) (xs zs : List Val) :
    ∀ (k : Nat) (st : FixedState),
      runFixedAux pm (xs ++ zs) k st =
        ((runFixedAux pm zs (k + xs.length) (runFixedAux pm xs k st).1).1,
          (runFixedAux pm xs k st).2 ++
            (runFixedAux pm zs (k + xs.length) (runFixedAux pm xs k st).1).2) := by
  induction xs with
  | nil => intro k st; simp [runFixedAux]
  | cons x rest ih =>
    intro k st
    cases hpr : processRecordFixed pm k x st with
    | ok st' =>
      simp only [List.cons_append, runFixedAux, hpr, List.length_cons, List.append_eq]
      rw [ih (k + 1) st']
      have harith : k + 1 + rest.length = k + (rest.length + 1) := by omega
      rw [harith]
    | error e =>
      simp only [List.cons_append, runFixedAux, hpr, List.length_cons, List.append_eq]
      rw [ih (k + 1) st]
      have harith : k + 1 + rest.length = k + (rest.length + 1) := by omega
      simp [harith]

theorem runFixedAux_single_error (pm : List (Val × Nat)) (b : Val)
    (hb : b.isDict = false) (ys : List Val) (k : Nat) (st : FixedState) :
    runFixedAux pm (b :: ys) k st =
      ((runFixedAux pm ys (k + 1) st).1,
        (k, recErrMsg) :: (runFixedAux pm ys (k + 1) st).2) := by
  have hpr : processRecordFixed pm k b st = Except.error recErrMsg := by
    cases b <;> first | rfl | (simp [Val.isDict] at hb)
  simp [runFixedAux, hpr]

/-- C4 (amended): in `populate_nested_data_fixed.py` a record whose
top-level structure cannot be processed is caught at the record boundary:
exactly one failure entry is recorded against that record's ordinal, the
state is unchanged by the bad record, and all later records are processed
exactly as they otherwise would be — one bad record never aborts that run.
(`complete_population.py` lacks the per-record handler: see the
counterexample, where the same bad record aborts its run.) -/
theorem c4_record_isolation (pm : List (Val × Nat)) (xs ys : List Val) (b : Val)
    (hb : b.isDict = false) (k : Nat) (st : FixedState) :
    runFixedAux pm (xs ++ b :: ys) k st =
      ((runFixedAux pm ys (k + xs.length + 1) (runFixedAux pm xs k st).1).1,
        (runFixedAux pm xs k st).2 ++
          (k + xs.length, recErrMsg) ::
            (runFixedAux pm ys (k + xs.length + 1) (runFixedAux pm xs k st).1).2) := by
  rw [runFixedAux_append pm xs (b :: ys) k st,
    runFixedAux_single_error pm b hb ys (k + xs.length) (runFixedAux pm xs k st).1]

/-- Witness for C4: a non-dict record between two good records is recorded
at its ordinal and the rest of the run proceeds. -/
theorem c4_record_isolation_witness :
    (Val.int 0).isDict = false ∧
    runFixedAux [] ([Val.dict []] ++ Val.int 0 :: [Val.dict []]) 0 initFixedState =
      ((runFixedAux [] [Val.dict []] (0 + [Val.dict []].length + 1)
          (runFixedAux [] [Val.dict []] 0 initFixedState).1).1,
        (runFixedAux [] [Val.dict []] 0 initFixedState).2 ++
          (0 + [Val.dict []].length, recErrMsg) ::
            (runFixedAux [] [Val.dict []] (0 + [Val.dict []].length + 1)
              (runFixedAux [] [Val.dict []] 0 initFixedState).1).2) :=
  ⟨rfl, c4_record_isolation [] [Val.dict []] [Val.dict []] (Val.int 0) rfl 0 initFixedState⟩

/-- C4 counterexample: in `complete_population.py` (a cited source of the
claim) the same bad record aborts the whole run — the good record after it
is never processed and no per-record failure entry exists. -/
theorem c4_counterexample :
    runCompleteAux [] [Val.int 0, Val.dict []] 0 initCState
      = Except.error recErrMsg := rfl

/-! ## C6 — registry idempotence and lazy dimension creation -/
theorem registerCompanyF_inv {reg : Registry CompanyRow}
    (h : RegInv CompanyRow.name CompanyRow.id reg) (cd : Val) :
    RegInv CompanyRow.name CompanyRow.id (registerCompanyF cd reg).2 := by
  unfold registerCompanyF
  cases hk : companyKeyF cd with
  | none => exact h
  | some nm => exact Registry.getOrCreate_inv h nm _ ⟨rfl, rfl⟩

theorem positionsFoldF_inv (person_id : Nat) (ps : List Val) :
    ∀ {reg : Registry CompanyRow}, RegInv CompanyRow.name CompanyRow.id reg →
      RegInv CompanyRow.name CompanyRow.id (positionsFoldF person_id ps reg).2 := by
  induction ps with
  | nil => intro reg h; exact h
  | cons pos rest ih =>
    intro reg h
    simp only [positionsFoldF]
    split
    · exact ih (registerCompanyF_inv h _)
    · exact ih h

theorem positionsStepF_inv {reg : Registry CompanyRow}
    (h : RegInv CompanyRow.name CompanyRow.id reg)
    (fields : List (String × Val)) (pid : Option Nat) :
    RegInv CompanyRow.name CompanyRow.id (positionsStepF fields pid reg).2 := by
  simp only [positionsStepF]
  split
  · exact positionsFoldF_inv _ _ h
  · exact h

theorem extractFixed_companies (pm : List (Val × Nat)) (idx : Nat)
    (fields : List (String × Val)) (st : FixedState) :
    (extractFixed pm idx fields st).companies =
      (positionsStepF fields (personIdC pm idx fields) st.companies).2 := rfl

theorem processRecordFixed_spec (pm : List (Val × Nat)) (k : Nat) (r : Val)
    (st : FixedState) :
    (∃ fields, r = Val.dict fields ∧
      processRecordFixed pm k r st = Except.ok (extractFixed pm k fields st)) ∨
    processRecordFixed pm k r st = Except.error recErrMsg := by
  cases r with
  | dict fields => exact Or.inl ⟨fields, rfl, rfl⟩
  | null => exact Or.inr rfl
  | bool b => exact Or.inr rfl
  | int n => exact Or.inr rfl
  | str s => exact Or.inr rfl
  | arr es => exact Or.inr rfl
  | pylist es => exact Or.inr rfl

theorem runFixedAux_companies_inv (pm : List (Val × Nat)) (rs : List Val) :
    ∀ (k : Nat) (st : FixedState),
      RegInv CompanyRow.name CompanyRow.id st.companies →
      RegInv CompanyRow.name CompanyRow.id (runFixedAux pm rs k st).1.companies := by
  induction rs with
  | nil => intro k st h; exact h
  | cons r rest ih =>
    intro k st h
    rcases processRecordFixed_spec pm k r st with ⟨fields, hr, hpr⟩ | hpr
    · simp only [runFixedAux, hpr]
      refine ih (k + 1) _ ?_
      rw [extractFixed_companies]
      exact positionsStepF_inv h _ _
    · simp only [runFixedAux, hpr]
      exact ih (k + 1) st h

theorem upsertC_names_nodup {acc : List CompanyPayloadC} (p : CompanyPayloadC)
    (h : (acc.map (fun c => c.name)).Nodup) :
    ((upsertC acc p).map (fun c => c.name)).Nodup := by
  unfold upsertC
  split
  · have hmap : (acc.map (fun q => if q.name == p.name then p else q)).map
        (fun c => c.name) = acc.map (fun c => c.name) := by
      rw [List.map_map]
      apply List.map_congr_left
      intro q _
      by_cases hq : q.name = p.name <;> simp [hq]
    rw [hmap]
    exact h
  · next hany =>
    rw [List.map_append]
    rw [List.nodup_append]
    refine ⟨h, List.nodup_singleton _, ?_⟩
    intro a ha hb
    simp only [List.map_cons, List.map_nil, List.mem_singleton] at hb
    subst hb
    obtain ⟨q, hq, hqn⟩ := List.mem_map.1 ha
    exact hany (List.any_eq_true.2 ⟨q, hq, by simp [hqn]⟩)

theorem uniqueCompaniesC_nodup (prs : List PosRowC) :
    ((uniqueCompaniesC prs).map (fun c => c.name)).Nodup := by
  unfold uniqueCompaniesC
  suffices h : ∀ acc : List CompanyPayloadC, (acc.map (fun c => c.name)).Nodup →
      ((prs.foldl (fun acc pos =>
        if pytruthy pos.company_name then
          upsertC acc ⟨pos.company_name, pos.company_display_name,
            pos.company_employee_count⟩
        else acc) acc).map (fun c => c.name)).Nodup by
    exact h [] List.nodup_nil
  induction prs with
  | nil => intro acc h; exact h
  | cons pos rest ih =>
    intro acc h
    rw [List.foldl_cons]
    by_cases hc : pytruthy pos.company_name
    · simp only [hc, if_true]
      exact ih _ (upsertC_names_nodup _ h)
    · simp only [hc, if_false]
      exact ih _ h

theorem extractFixed_dead_person (pm : List (Val × Nat)) (idx : Nat)
    (fields : List (String × Val)) (st : FixedState) :
    (extractFixed pm idx fields st).companies = st.companies ∧
    (extractFixed pm idx fields st).schools = st.schools ∧
    (extractFixed pm idx fields st).positions = st.positions ∧
    (extractFixed pm idx fields st).degrees = st.degrees := by
  have hpid := personIdC_eq_none pm idx fields
  simp [extractFixed, hpid, positionsStepF, degreesStepF, optTruthy]

theorem runFixedAux_dead_person (pm : List (Val × Nat)) (records : List Val) :
    ∀ (idx : Nat) (st : FixedState),
      (runFixedAux pm records idx st).1.companies = st.companies ∧
      (runFixedAux pm records idx st).1.schools = st.schools ∧
      (runFixedAux pm records idx st).1.positions = st.positions ∧
      (runFixedAux pm records idx st).1.degrees = st.degrees := by
  induction records with
  | nil => intro idx st; exact ⟨rfl, rfl, rfl, rfl⟩
  | cons r rs ih =>
    intro idx st
    cases hpr : processRecordFixed pm idx r st with
    | ok st' =>
      have hst' : st'.companies = st.companies ∧ st'.schools = st.schools ∧
          st'.positions = st.positions ∧ st'.degrees = st.degrees := by
        cases r with
        | dict fields =>
          have he : st' = extractFixed pm idx fields st := by
            simpa [processRecordFixed] using hpr.symm
          rw [he]
          exact extractFixed_dead_person pm idx fields st
        | null => simp [processRecordFixed] at hpr
        | bool b => simp [processRecordFixed] at hpr
        | int n => simp [processRecordFixed] at hpr
        | str s => simp [processRecordFixed] at hpr
        | arr es => simp [processRecordFixed] at hpr
        | pylist es => simp [processRecordFixed] at hpr
      obtain ⟨h1, h2, h3, h4⟩ := ih (idx + 1) st'
      simp only [runFixedAux, hpr]
      rw [h1, h2, h3, h4]
      exact hst'
    | error e =>
      simp only [runFixedAux, hpr]
      exact ih (idx + 1) st

/-- C6 (amended): registry registration is idempotent — `getOrCreate` on an
already-known natural key is a no-op returning the existing id (never
overwriting), so `registerCompanyF` on a company object whose name is
already registered returns the existing id and leaves the state untouched;
over any `process_nested_data` run each Company name has at most one
`companies` row, exactly one once registered; and the
`complete_population.py` post-pass `unique_companies` dict holds exactly
one payload per company name.  The lazy-creation consequence is
unreachable, however: the scripts read `person` with `safe_get(row, ...)`
on a pandas Series, so `person_id` is constantly `None`, the
`and person_id` guards keep the positions/degrees loops from ever running,
and a full run lazily creates **zero** Company and School rows — not
"exactly one" (`c6_counterexample`). -/
theorem c6_registry_idempotent :
    (∀ (reg : Registry CompanyRow) (k : Val) (mk : Nat → CompanyRow) (i : Nat),
      lookupV reg.map k = some i → reg.getOrCreate k mk = (i, reg)) ∧
    (∀ (cd : Val) (reg : Registry CompanyRow) (k : Val) (i : Nat),
      companyKeyF cd = some k → lookupV reg.map k = some i →
      registerCompanyF cd reg = (some i, reg)) ∧
    (∀ (pm : List (Val × Nat)) (records : List Val) (s : Val),
      ((runFixedAux pm records 0 initFixedState).1.companies.rows.filter
        (fun c => c.name == s)).length ≤ 1) ∧
    (∀ (pm : List (Val × Nat)) (records : List Val) (s : Val) (i : Nat),
      lookupV (runFixedAux pm records 0 initFixedState).1.companies.map s = some i →
      ((runFixedAux pm records 0 initFixedState).1.companies.rows.filter
        (fun c => c.name == s)).length = 1) ∧
    (∀ prs : List PosRowC, ((uniqueCompaniesC prs).map (fun c => c.name)).Nodup) ∧
    (∀ (pm : List (Val × Nat)) (records : List Val),
      (runFixedAux pm records 0 initFixedState).1.companies.rows = [] ∧
      (runFixedAux pm records 0 initFixedState).1.schools.rows = [] ∧
      (runFixedAux pm records 0 initFixedState).1.positions = [] ∧
      (runFixedAux pm records 0 initFixedState).1.degrees = []) := by
  have hinit : RegInv CompanyRow.name CompanyRow.id initFixedState.companies :=
    ⟨rfl, List.nodup_nil⟩
  refine ⟨Registry.getOrCreate_of_lookup, ?_, ?_, ?_, uniqueCompaniesC_nodup, ?_⟩
  · intro cd reg k i hk hl
    simp only [registerCompanyF, hk]
    rw [Registry.getOrCreate_of_lookup reg k _ i hl]
  · intro pm records s
    exact (runFixedAux_companies_inv pm records 0 initFixedState hinit).rows_key_count s
  · intro pm records s i hl
    exact (runFixedAux_companies_inv pm records 0 initFixedState
      hinit).rows_key_count_eq_one s i hl
  · intro pm records
    obtain ⟨h1, h2, h3, h4⟩ := runFixedAux_dead_person pm records 0 initFixedState
    exact ⟨by rw [h1]; rfl, by rw [h2]; rfl, h3, h4⟩

/-- Witness for C6: re-registering `"Acme"` is a no-op yielding id 1. -/
theorem c6_registry_idempotent_witness :
    companyKeyF (Val.dict [("name", Val.str "Acme")]) = some (Val.str "Acme") ∧
    lookupV c6reg.map (Val.str "Acme") = some 1 ∧
    registerCompanyF (Val.dict [("name", Val.str "Acme")]) c6reg = (some 1, c6reg) :=
  ⟨by decide, by decide,
    c6_registry_idempotent.2.1 (Val.dict [("name", Val.str "Acme")]) c6reg
      (Val.str "Acme") 1 (by decide) (by decide)⟩

/-- C6 counterexample: a record carrying a person whose slug `"a"` IS in
`person_map` and a position naming company `"Acme"` — the claimed lazy
creation would make one `companies` row, but the dead `safe_get(row,
'person', {})` branch leaves `person_id = None`, the positions loop never
runs, and the full run creates zero Company rows and zero position rows. -/
theorem c6_counterexample :
    (runFixedAux [(Val.str "a", 1)] [Val.dict c6rec] 0
      initFixedState).1.companies.rows.length = 0 ∧
    (runFixedAux [(Val.str "a", 1)] [Val.dict c6rec] 0
      initFixedState).1.positions.length = 0 := by
  decide

end SignalDB

